import Mathlib

/-!
Shallow embedding of the consul synchronization core of marathon-consul
(`consul/consul.go`): the agent-pool retry wrapper, the datacenter fan-out,
the task/app to service-registration translation with health-check mapping,
and the register/deregister batch paths.  External collaborators (the Go
`strings`/`fmt`/`net/url` standard library, the `apps`, `service`, `utils`
and agent-pool packages) are modelled from their documented behaviour where
their sources are not part of the embedded file.
-/

/- ### Go string / formatting primitives (model of the Go standard library) -/

/-- Decimal digit character, as produced by Go's `fmt` `%d` verb. -/
def digitCharGo (d : Nat) : Char :=
  match d with
  | 0 => '0' | 1 => '1' | 2 => '2' | 3 => '3' | 4 => '4'
  | 5 => '5' | 6 => '6' | 7 => '7' | 8 => '8' | 9 => '9'
  | _ => '*'

/-- Decimal digits of `n`, most significant first; `fuel` bounds the recursion
and any `fuel > n` is enough. -/
def natChars (fuel n : Nat) : List Char :=
  match fuel with
  | 0 => []
  | fuel' + 1 =>
    if n < 10 then [digitCharGo n] else natChars fuel' (n / 10) ++ [digitCharGo (n % 10)]

/-- Decimal rendering of a natural number (Go `fmt` `%d` on a non-negative int). -/
def natStr (n : Nat) : String := ⟨natChars (n + 1) n⟩

/-- Decimal rendering of an integer (Go `fmt` `%d` on an `int`). -/
def intStr (i : Int) : String := if i < 0 then "-" ++ natStr (-i).toNat else natStr i.toNat

/-- ASCII upper-casing of one character (Go `strings.ToUpper`, ASCII fragment). -/
def charUpper (c : Char) : Char :=
  if 97 ≤ c.toNat ∧ c.toNat ≤ 122 then Char.ofNat (c.toNat - 32) else c

/-- ASCII lower-casing of one character (Go `strings.ToLower`, ASCII fragment). -/
def charLower (c : Char) : Char :=
  if 65 ≤ c.toNat ∧ c.toNat ≤ 90 then Char.ofNat (c.toNat + 32) else c

/-- Go `strings.ToUpper`, ASCII fragment. -/
def toUpperGo (s : String) : String := ⟨s.data.map charUpper⟩

/-- Go `strings.ToLower`, ASCII fragment. -/
def toLowerGo (s : String) : String := ⟨s.data.map charLower⟩

/-- Go `unicode.IsSpace` on the ASCII white-space characters. -/
def isSpaceGo (c : Char) : Bool :=
  c.toNat = 32 || c.toNat = 9 || c.toNat = 10 || c.toNat = 11 || c.toNat = 12 || c.toNat = 13

/-- Go `strings.TrimSpace`, ASCII fragment. -/
def trimGo (s : String) : String :=
  ⟨((s.data.dropWhile isSpaceGo).reverse.dropWhile isSpaceGo).reverse⟩

/-- Helper for `splitComma`: accumulates the current field in reverse. -/
def splitCommaAux : List Char → List Char → List String
  | [], acc => [⟨acc.reverse⟩]
  | c :: rest, acc =>
    if c = ',' then (⟨acc.reverse⟩ : String) :: splitCommaAux rest [] else splitCommaAux rest (c :: acc)

/-- Go `strings.Split(s, ",")`. -/
def splitComma (s : String) : List String := splitCommaAux s.data []

/- ### Data model (`apps`, `service` and `consulapi` records used by consul.go) -/

/-- Configuration surface consumed by the consul core (`consul.Config`). -/
structure Config where
  requestRetries : Nat
  agentFailuresTolerance : Nat
  tag : String
  consulNameSeparator : String
  ignoredHealthChecks : String
deriving DecidableEq

/-- Marathon health check (`apps.HealthCheck`); `command` is `Command.Value`. -/
structure HealthCheck where
  path : String := ""
  portIndex : Nat := 0
  port : Int := 0
  protocol : String := ""
  intervalSeconds : Int := 0
  timeoutSeconds : Int := 0
  command : String := ""
deriving DecidableEq

/-- Marathon task (the `apps` package task record). -/
structure MarathonTask where
  id : String
  host : String := ""
  ports : List Int := []
  appID : String := ""
deriving DecidableEq

/-- One registration intent derived from an app (`apps.RegistrationIntent`). -/
structure RegistrationIntent where
  name : String
  port : Int
  tags : List String := []
deriving DecidableEq

/-- Marathon app (`apps.App`).  `registrationIntents` models the collaborator
method `App.RegistrationIntents(task, separator)`, an opaque derivation whose
source is outside the embedded file. -/
structure App where
  id : String := ""
  labels : List (String × String) := []
  healthChecks : List HealthCheck := []
  registrationIntents : MarathonTask → String → List RegistrationIntent := fun _ _ => []

/-- Consul agent-side check record (`consulapi.AgentServiceCheck`); unset
fields are Go zero-value empty strings. -/
structure AgentServiceCheck where
  interval : String := ""
  timeout : String := ""
  status : String := ""
  http : String := ""
  tcp : String := ""
  script : String := ""
deriving DecidableEq

/-- Consul service registration record (`consulapi.AgentServiceRegistration`). -/
structure AgentServiceRegistration where
  id : String
  name : String
  port : Int
  address : String
  tags : List String
  checks : List AgentServiceCheck
deriving DecidableEq

/-- Consul catalog query result row (`consulapi.CatalogService`). -/
structure CatalogService where
  serviceID : String := ""
  serviceName : String := ""
  serviceTags : List String := []
  address : String := ""
deriving DecidableEq

/-- Internal service record (`service.Service`). -/
structure Service where
  id : String
  name : String
  tags : List String
  registeringAgentAddress : String
deriving DecidableEq

/-- Go `contains` helper from consul.go (linear membership scan). -/
def containsGo (slice : List String) (search : String) : Bool :=
  match slice with
  | [] => false
  | element :: rest => if element = search then true else containsGo rest search

/-- Embeds `consulServiceToService` from consul.go. -/
def consulServiceToService (consulService : CatalogService) : Service :=
  { id := consulService.serviceID
    name := consulService.serviceName
    tags := consulService.serviceTags
    registeringAgentAddress := consulService.address }

/-- Embeds `consulServicesToServices` from consul.go. -/
def consulServicesToServices (consulServices : List CatalogService) : List Service :=
  consulServices.map consulServiceToService

/-- Modelled from the spec: the task-identity tag `marathon-task:<TaskID>`
built by `service.MarathonTaskTag`, whose source (the `service` package) is
outside the embedded file. -/
def marathonTaskTag (taskID : String) : String := "marathon-task:" ++ taskID

/- ### URL model (Go `net/url`, external standard library) -/

/-- Minimal model of `url.URL` as used by the health-check builder. -/
structure GoURL where
  scheme : String := ""
  host : String := ""
  path : String := ""
deriving DecidableEq

/-- Modelled from Go `net/url.ParseRequestURI` on the inputs this core feeds
it: an absolute path (leading `/`) parses to a URL carrying that path; other
forms are modelled as the parse failure Go reports for non-absolute URIs. -/
def parseRequestURI (raw : String) : Except String GoURL :=
  match raw.data with
  | '/' :: _ => .ok { scheme := "", host := "", path := raw }
  | _ => .error "invalid URI for request"

/-- Modelled from Go `url.URL.String()` for a URL with scheme, host and an
absolute path set. -/
def urlString (u : GoURL) : String := u.scheme ++ "://" ++ u.host ++ u.path

/- ### Service translator (consul.go lines 277-364) -/

/-- Embeds `getIgnoredHealthCheckTypes`: upper-case the configured
comma-separated list, trim each entry, drop empties. -/
def getIgnoredHealthCheckTypes (c : Config) : List String :=
  (splitComma (toUpperGo c.ignoredHealthChecks)).filterMap fun ignoredType =>
    let t := trimGo ignoredType
    if t = "" then none else some t

/-- Loop body of `marathonToConsulChecks`, one iteration per health check.
The result is `none` exactly when Go would fault with an index-out-of-range
runtime panic on `task.Ports[check.PortIndex]`. -/
def marathonToConsulChecksAux (task : MarathonTask) (serviceAddress : String)
    (ignoredHealthCheckTypes : List String) :
    List HealthCheck → Option (List AgentServiceCheck)
  | [] => some []
  | check :: rest =>
    if containsGo ignoredHealthCheckTypes check.protocol then
      marathonToConsulChecksAux task serviceAddress ignoredHealthCheckTypes rest
    else
      match (if check.port ≠ 0 then some check.port else task.ports[check.portIndex]?) with
      | none => none
      | some port =>
        let consulCheck : AgentServiceCheck :=
          { interval := intStr check.intervalSeconds ++ "s"
            timeout := intStr check.timeoutSeconds ++ "s"
            status := "passing" }
        match check.protocol with
        | "HTTP" | "HTTPS" =>
          match parseRequestURI check.path with
          | .ok parsedURL =>
            match marathonToConsulChecksAux task serviceAddress ignoredHealthCheckTypes rest with
            | none => none
            | some built =>
              some ({ consulCheck with
                http := urlString { parsedURL with
                  scheme := toLowerGo check.protocol
                  host := serviceAddress ++ ":" ++ intStr port } } :: built)
          | .error _ =>
            marathonToConsulChecksAux task serviceAddress ignoredHealthCheckTypes rest
        | "TCP" =>
          match marathonToConsulChecksAux task serviceAddress ignoredHealthCheckTypes rest with
          | none => none
          | some built =>
            some ({ consulCheck with tcp := serviceAddress ++ ":" ++ intStr port } :: built)
        | "COMMAND" =>
          match marathonToConsulChecksAux task serviceAddress ignoredHealthCheckTypes rest with
          | none => none
          | some built => some ({ consulCheck with script := check.command } :: built)
        | _ =>
          marathonToConsulChecksAux task serviceAddress ignoredHealthCheckTypes rest

/-- Embeds `marathonToConsulChecks` (consul.go lines 305-353); `none` models
the runtime fault on an out-of-range `PortIndex`. -/
def marathonToConsulChecks (c : Config) (task : MarathonTask) (healthChecks : List HealthCheck)
    (serviceAddress : String) : Option (List AgentServiceCheck) :=
  marathonToConsulChecksAux task serviceAddress (getIgnoredHealthCheckTypes c) healthChecks

/-- Embeds `serviceID` (consul.go lines 301-303): `fmt.Sprintf("%s_%s_%d", ...)`. -/
def serviceID (task : MarathonTask) (name : String) (port : Int) : String :=
  task.id ++ "_" ++ name ++ "_" ++ intStr port

/-- Outcome of the task-to-registrations translation: an error return, a Go
runtime fault (modelling the panic in the check builder), or the list of
registrations. -/
inductive TranslationOutcome where
  | failure (msg : String)
  | fault
  | registrations (regs : List AgentServiceRegistration)
deriving DecidableEq

/-- Embeds `marathonTaskToConsulServices` (consul.go lines 277-299).
`resolve` models the collaborator `utils.HostToIPv4(task.Host)` composed with
`IP.String()` (its source is outside the embedded file): `.error` is the
address-resolution failure, `.ok` the resolved address. -/
def marathonTaskToConsulServices (c : Config) (resolve : String → Except String String)
    (task : MarathonTask) (app : App) : TranslationOutcome :=
  match resolve task.host with
  | .error e => .failure e
  | .ok ip =>
    let serviceAddress := ip
    match marathonToConsulChecks c task app.healthChecks serviceAddress with
    | none => .fault
    | some checks =>
      .registrations ((app.registrationIntents task c.consulNameSeparator).map fun intent =>
        { id := serviceID task intent.name intent.port
          name := intent.name
          port := intent.port
          address := serviceAddress
          tags := (c.tag :: intent.tags) ++ [marathonTaskTag task.id]
          checks := checks })

/- ### Agent pool (the `Agents` collaborator, modelled from the spec) -/

/-- Modelled from the spec: one known catalog agent of the pool, with its
address and failure counter (the `Agents` package is outside the embedded
file). -/
structure Agent where
  ip : String
  failures : Nat
deriving DecidableEq

/-- Modelled from the spec: `Agents.RemoveAgent(address)` evicts the agent
with that address from the pool. -/
def removeAgentGo (pool : List Agent) (ip : String) : List Agent :=
  pool.filter fun a => a.ip != ip

/-- Modelled from the spec: `Agent.IncFailures` bumps the failure counter of
the agent with the given address. -/
def incFailuresGo (pool : List Agent) (ip : String) : List Agent :=
  pool.map fun a => if a.ip = ip then { a with failures := a.failures + 1 } else a

/-- Modelled from the spec: `Agent.ClearFailures` resets the failure counter
of the agent with the given address. -/
def clearFailuresGo (pool : List Agent) (ip : String) : List Agent :=
  pool.map fun a => if a.ip = ip then { a with failures := 0 } else a

/-- Errors surfaced along the retry path.  `.provider` holds a raw underlying
provider error: the wrapper logs such errors but never returns them;
`.givingUp` is the terminal `errors.New("... Giving up")` value and
`.noAgentsAvailable` the empty-pool error of `Agents.GetAnyAgent` (modelled
from the spec). -/
inductive RetryErr (ε : Type) where
  | noAgentsAvailable
  | givingUp
  | provider (e : ε)
deriving DecidableEq

instance {ε α : Type} [DecidableEq ε] [DecidableEq α] : DecidableEq (Except ε α) := fun a b =>
  match a, b with
  | .ok x, .ok y => if h : x = y then .isTrue (by rw [h]) else .isFalse (by intro hc; cases hc; exact h rfl)
  | .error x, .error y => if h : x = y then .isTrue (by rw [h]) else .isFalse (by intro hc; cases hc; exact h rfl)
  | .ok _, .error _ => .isFalse (by intro hc; cases hc)
  | .error _, .ok _ => .isFalse (by intro hc; cases hc)

/-- Observable events of one retry run: a provider invocation with its
outcome, a failure-counter increment (recording the new count), an agent
removal, and a counter reset. -/
inductive AgentEvent (ε ρ : Type) where
  | invoked (attempt : Nat) (ip : String) (outcome : Except ε ρ)
  | incremented (ip : String) (newCount : Nat)
  | removed (ip : String)
  | cleared (ip : String)
deriving DecidableEq

/-- Result of a retry run: the returned value or error, the final agent pool,
and the ordered trace of events. -/
structure RetryOut (ε ρ : Type) where
  result : Except (RetryErr ε) ρ
  pool : List Agent
  trace : List (AgentEvent ε ρ)
deriving DecidableEq

/-- Embeds the loop of `getServicesUsingProviderWithRetriesOnAgentFailure`
(consul.go lines 38-55).  `choose` models `Agents.GetAnyAgent` (modelled from
the spec: an arbitrary agent of the pool, `none` exactly on an empty pool);
`provide` gives the provider outcome of each attempt for the chosen agent
(the attempt index models the changing external catalog state); `fuel` is the
number of attempts still allowed. -/
def retryGo (cfg : Config) (choose : List Agent → Option Agent)
    (provide : Nat → Agent → Except ε ρ) :
    Nat → Nat → List Agent → RetryOut ε ρ
  | 0, _, pool => ⟨.error .givingUp, pool, []⟩
  | fuel + 1, attempt, pool =>
    match choose pool with
    | none => ⟨.error .noAgentsAvailable, pool, []⟩
    | some agent =>
      match provide attempt agent with
      | .error e =>
        let failures := agent.failures + 1
        if failures > cfg.agentFailuresTolerance then
          let rest := retryGo cfg choose provide fuel (attempt + 1)
            (removeAgentGo (incFailuresGo pool agent.ip) agent.ip)
          ⟨rest.result, rest.pool,
            .invoked attempt agent.ip (.error e) :: .incremented agent.ip failures ::
              .removed agent.ip :: rest.trace⟩
        else
          let rest := retryGo cfg choose provide fuel (attempt + 1) (incFailuresGo pool agent.ip)
          ⟨rest.result, rest.pool,
            .invoked attempt agent.ip (.error e) :: .incremented agent.ip failures :: rest.trace⟩
      | .ok services =>
        ⟨.ok services, clearFailuresGo pool agent.ip,
          [.invoked attempt agent.ip (.ok services), .cleared agent.ip]⟩

/-- Embeds `getServicesUsingProviderWithRetriesOnAgentFailure` (consul.go
lines 37-57): run the retry loop with `RequestRetries + 1` allowed attempts;
exhausting them yields the terminal giving-up error. -/
def getServicesUsingProviderWithRetriesOnAgentFailure (cfg : Config)
    (choose : List Agent → Option Agent) (provide : Nat → Agent → Except ε ρ)
    (pool : List Agent) : RetryOut ε ρ :=
  retryGo cfg choose provide (cfg.requestRetries + 1) 0 pool

/-- Outcomes of the provider invocations recorded in a trace, in order. -/
def invokedOutcomes : List (AgentEvent ε ρ) → List (Except ε ρ)
  | [] => []
  | .invoked _ _ o :: rest => o :: invokedOutcomes rest
  | .incremented _ _ :: rest => invokedOutcomes rest
  | .removed _ :: rest => invokedOutcomes rest
  | .cleared _ :: rest => invokedOutcomes rest

/- ### Datacenter fan-out (consul.go lines 59-90) -/

/-- Per-datacenter query options (`consulapi.QueryOptions` with the
`Datacenter` field set). -/
structure QueryOptions where
  datacenter : String
deriving DecidableEq

/-- Oracle for the consul catalog endpoints reachable through one agent
client (`consulapi.Client`, external collaborator): the datacenter listing,
the per-datacenter service/tags listing (`Catalog().Services`, a Go map whose
enumeration is modelled as this list's order), and the per-datacenter
instance query (`Catalog().Service(name, tag, query)`). -/
structure Catalog (ε : Type) where
  datacenters : Except ε (List String)
  services : String → Except ε (List (String × List String))
  service : String → String → String → Except ε (List CatalogService)

/-- Embeds `dcAwareQueriesForAllDCs` (consul.go lines 76-90). -/
def dcAwareQueriesForAllDCs (cat : Catalog ε) : Except ε (List QueryOptions) :=
  match cat.datacenters with
  | .error e => .error e
  | .ok datacenters => .ok (datacenters.map fun dc => { datacenter := dc })

/-- Loop of `getServicesUsingAgent` over the per-datacenter queries: the
first failing query aborts, successful per-datacenter results are
concatenated in query order. -/
def getServicesUsingAgentAux (cfg : Config) (cat : Catalog ε) (name : String) :
    List QueryOptions → Except ε (List Service)
  | [] => .ok []
  | dcAwareQuery :: rest =>
    match cat.service name cfg.tag dcAwareQuery.datacenter with
    | .error e => .error e
    | .ok allConsulServices =>
      match getServicesUsingAgentAux cfg cat name rest with
      | .error e => .error e
      | .ok acc => .ok (consulServicesToServices allConsulServices ++ acc)

/-- Embeds `getServicesUsingAgent` (consul.go lines 59-74). -/
def getServicesUsingAgent (cfg : Config) (cat : Catalog ε) (name : String) :
    Except ε (List Service) :=
  match dcAwareQueriesForAllDCs cat with
  | .error e => .error e
  | .ok dcAwareQueries => getServicesUsingAgentAux cfg cat name dcAwareQueries

/- ### Find-by-task and deregistration (consul.go lines 197-245) -/

/-- Inner loop of the `findServicesByTaskID` provider over one datacenter's
service listing: keep the services tagged with the searched task tag and
fetch their instances. -/
def findInServicesList (cat : Catalog ε) (searchedTag dc : String) :
    List (String × List String) → Except ε (List Service)
  | [] => .ok []
  | (consulService, tags) :: rest =>
    if containsGo tags searchedTag then
      match cat.service consulService searchedTag dc with
      | .error e => .error e
      | .ok instancesForTask =>
        match findInServicesList cat searchedTag dc rest with
        | .error e => .error e
        | .ok acc => .ok (consulServicesToServices instancesForTask ++ acc)
    else findInServicesList cat searchedTag dc rest

/-- Loop of the `findServicesByTaskID` provider over datacenters. -/
def findInDCs (cat : Catalog ε) (searchedTag : String) :
    List QueryOptions → Except ε (List Service)
  | [] => .ok []
  | dcAwareQuery :: rest =>
    match cat.services dcAwareQuery.datacenter with
    | .error e => .error e
    | .ok consulServices =>
      match findInServicesList cat searchedTag dcAwareQuery.datacenter consulServices with
      | .error e => .error e
      | .ok found =>
        match findInDCs cat searchedTag rest with
        | .error e => .error e
        | .ok acc => .ok (found ++ acc)

/-- Provider closure passed to the retry wrapper by `findServicesByTaskID`
(consul.go lines 220-244). -/
def findServicesProvider (cat : Catalog ε) (searchedTaskID : String) :
    Except ε (List Service) :=
  match dcAwareQueriesForAllDCs cat with
  | .error e => .error e
  | .ok dcAwareQueries => findInDCs cat (marathonTaskTag searchedTaskID) dcAwareQueries

/-- Embeds `findServicesByTaskID` (consul.go lines 219-245): the provider run
through the retry wrapper; `clientOf` models the consul client of the chosen
agent at each attempt. -/
def findServicesByTaskID (cfg : Config) (choose : List Agent → Option Agent)
    (clientOf : Nat → String → Catalog ε) (pool : List Agent) (searchedTaskID : String) :
    RetryOut ε (List Service) :=
  getServicesUsingProviderWithRetriesOnAgentFailure cfg choose
    (fun attempt agent => findServicesProvider (clientOf attempt agent.ip) searchedTaskID) pool

/-- Aggregate error of a batch operation.  Modelled from the spec:
`utils.MergeErrorsOrNil` (source outside the embedded file) wraps the ordered
per-item failures together with a context message. -/
inductive MergedErr (ε : Type) where
  | merged (message : String) (errs : List ε)
deriving DecidableEq

/-- Modelled from the spec: `utils.MergeErrorsOrNil` returns no error when the
list is empty and otherwise one aggregate error wrapping all of them. -/
def mergeErrorsOrNil (errs : List ε) (message : String) : Option (MergedErr ε) :=
  if errs.isEmpty then none else some (.merged message errs)

/-- Error collection loop shared by the batch register/deregister embeddings:
the outcome oracle is consulted for every item, failures are collected in
order, no failure stops the iteration. -/
def batchErrors (outcome : α → Option ε) : List α → List ε
  | [] => []
  | item :: rest =>
    match outcome item with
    | some e => e :: batchErrors outcome rest
    | none => batchErrors outcome rest

/-- Embeds `deregisterMultipleServices` (consul.go lines 207-217);
`deregOutcome` is the oracle outcome of one `Deregister` call.  Besides the
merged result it returns the list of services on which `Deregister` was
invoked. -/
def deregisterMultipleServices (deregOutcome : Service → Option ε)
    (services : List Service) (taskID : String) :
    Option (MergedErr ε) × List Service :=
  (mergeErrorsOrNil (batchErrors deregOutcome services) ("deregistering by task " ++ taskID),
   services)

/-- Errors returned by `DeregisterByTask`: a failed retrying query, the
no-matching-service error (`fmt.Errorf("Couldn't find any service matching
task id %s", taskID)`), or merged per-service deregistration failures. -/
inductive DeregisterByTaskErr (ε : Type) where
  | query (e : RetryErr ε)
  | noMatchingService (taskID : String)
  | mergedErr (m : MergedErr ε)
deriving DecidableEq

/-- Embeds `DeregisterByTask` (consul.go lines 197-205): find the services of
the task through the retrying query path; zero matches is the
no-matching-service error; otherwise deregister each found service.  The
second component is the list of services on which `Deregister` was invoked. -/
def deregisterByTask (cfg : Config) (choose : List Agent → Option Agent)
    (clientOf : Nat → String → Catalog ε) (deregOutcome : Service → Option ε)
    (pool : List Agent) (taskID : String) :
    Except (DeregisterByTaskErr ε) Unit × List Service :=
  match (findServicesByTaskID cfg choose clientOf pool taskID).result with
  | .error e => (.error (.query e), [])
  | .ok services =>
    if services.length = 0 then (.error (.noMatchingService taskID), [])
    else
      match deregisterMultipleServices deregOutcome services taskID with
      | (none, attempted) => (.ok (), attempted)
      | (some m, attempted) => (.error (.mergedErr m), attempted)

/- ### Batch registration (consul.go lines 164-195) -/

/-- Embeds `register` (consul.go lines 176-195): resolve the specific agent
for the registration's address (`getAgent` models `Agents.GetAgent`, which
can fail with a connect error; modelled from the spec, its source being
outside the embedded file) and, only when that succeeded, submit the
registration on that agent (`serviceRegister`, the catalog submission
outcome for this registration). -/
def register (getAgent : String → Option ε)
    (serviceRegister : AgentServiceRegistration → Option ε)
    (s : AgentServiceRegistration) : Option ε :=
  match getAgent s.address with
  | some e => some e
  | none => serviceRegister s

/-- Embeds `registerMultipleServices` (consul.go lines 164-174): call
`register` on every registration, collect the failures, and merge them (or
return no error).  The second component is the list of registrations on which
`register` was invoked. -/
def registerMultipleServices (getAgent : String → Option ε)
    (serviceRegister : AgentServiceRegistration → Option ε)
    (services : List AgentServiceRegistration) :
    Option (MergedErr ε) × List AgentServiceRegistration :=
  (mergeErrorsOrNil (batchErrors (register getAgent serviceRegister) services)
    "registering services", services)

/-- Shape of a retry-run trace as built by `retryGo`: iterations are
two-event failure blocks (failed invocation, then a counter increment within
tolerance), three-event eviction blocks (failed invocation, increment beyond
tolerance, removal), or the terminal success pair (successful invocation,
counter reset); a run may also stop with no further events. -/
inductive RetryTrace (tol : Nat) : List (AgentEvent ε ρ) → Prop where
  | nil : RetryTrace tol []
  | done (attempt : Nat) (ip : String) (r : ρ) :
      RetryTrace tol [.invoked attempt ip (.ok r), .cleared ip]
  | keep (attempt : Nat) (ip : String) (e : ε) (n : Nat) (evs : List (AgentEvent ε ρ)) :
      n ≤ tol → RetryTrace tol evs →
      RetryTrace tol (.invoked attempt ip (.error e) :: .incremented ip n :: evs)
  | evict (attempt : Nat) (ip : String) (e : ε) (n : Nat) (evs : List (AgentEvent ε ρ)) :
      n > tol → RetryTrace tol evs →
      RetryTrace tol (.invoked attempt ip (.error e) :: .incremented ip n ::
        .removed ip :: evs)

/- ### Helper lemmas -/

lemma getServicesUsingAgentAux_all_ok (cfg : Config) (cat : Catalog ε) (name : String)
    (f : QueryOptions → List CatalogService) :
    ∀ queries : List QueryOptions,
      (∀ q ∈ queries, cat.service name cfg.tag q.datacenter = .ok (f q)) →
      getServicesUsingAgentAux cfg cat name queries =
        .ok (queries.flatMap fun q => consulServicesToServices (f q)) := by
  intro queries
  induction queries with
  | nil => intro _; rfl
  | cons q rest ih =>
    intro h
    have hq := h q (List.mem_cons_self q rest)
    have hrest := ih fun x hx => h x (List.mem_cons_of_mem q hx)
    simp only [getServicesUsingAgentAux, hq, hrest, List.flatMap_cons]

lemma getServicesUsingAgentAux_first_error (cfg : Config) (cat : Catalog ε) (name : String) :
    ∀ (pre : List QueryOptions) (q : QueryOptions) (post : List QueryOptions) (e : ε),
      (∀ p ∈ pre, ∃ cs, cat.service name cfg.tag p.datacenter = .ok cs) →
      cat.service name cfg.tag q.datacenter = .error e →
      getServicesUsingAgentAux cfg cat name (pre ++ q :: post) = .error e := by
  intro pre
  induction pre with
  | nil =>
    intro q post e _ hq
    simp only [List.nil_append, getServicesUsingAgentAux, hq]
  | cons p rest ih =>
    intro q post e hpre hq
    obtain ⟨cs, hcs⟩ := hpre p (List.mem_cons_self p rest)
    have hr := ih q post e (fun x hx => hpre x (List.mem_cons_of_mem p hx)) hq
    simp only [List.cons_append, getServicesUsingAgentAux, hcs, List.append_eq, hr]

/- ### Claim theorems -/

/-- C10: for every task and app, the health-check set is computed once per
task — from the task, the app's health checks and the resolved address —
before the per-intent loop, so every registration produced for that task
carries that identical checks collection, regardless of the intent's name or
port. -/
theorem checks_computed_once_per_task (c : Config) (resolve : String → Except String String)
    (task : MarathonTask) (app : App) (regs : List AgentServiceRegistration)
    (h : marathonTaskToConsulServices c resolve task app = .registrations regs) :
    ∃ address checks, resolve task.host = .ok address ∧
      marathonToConsulChecks c task app.healthChecks address = some checks ∧
      ∀ r ∈ regs, r.checks = checks := by
  cases hres : resolve task.host with
  | error e => simp [marathonTaskToConsulServices, hres] at h
  | ok ip =>
    cases hch : marathonToConsulChecks c task app.healthChecks ip with
    | none => simp [marathonTaskToConsulServices, hres, hch] at h
    | some checks =>
      simp only [marathonTaskToConsulServices, hres, hch] at h
      injection h with h
      refine ⟨ip, checks, rfl, hch, ?_⟩
      intro r hr
      rw [← h] at hr
      obtain ⟨intent, _, hri⟩ := List.mem_map.mp hr
      rw [← hri]

/-- C10 witness: a concrete task with two intents, both registrations carrying
the one computed check set. -/
theorem checks_computed_once_per_task_witness :
    ∃ address checks, (fun (_ : String) => (Except.ok "10.0.0.5" : Except String String)) "h" = .ok address ∧
      marathonToConsulChecks
        { requestRetries := 0, agentFailuresTolerance := 0, tag := "marathon",
          consulNameSeparator := ".", ignoredHealthChecks := "" }
        { id := "t1", host := "h", ports := [8080], appID := "a" }
        [{ protocol := "TCP", port := 9000, intervalSeconds := 60, timeoutSeconds := 20 }]
        address = some checks ∧
      ∀ r ∈ [({ id := "t1_n1_80", name := "n1", port := 80, address := "10.0.0.5",
                tags := ["marathon", "marathon-task:t1"],
                checks := [{ interval := "60s", timeout := "20s", status := "passing",
                             tcp := "10.0.0.5:9000" }] } : AgentServiceRegistration),
              { id := "t1_n2_81", name := "n2", port := 81, address := "10.0.0.5",
                tags := ["marathon", "marathon-task:t1"],
                checks := [{ interval := "60s", timeout := "20s", status := "passing",
                             tcp := "10.0.0.5:9000" }] }], r.checks = checks := by
  exact checks_computed_once_per_task
    { requestRetries := 0, agentFailuresTolerance := 0, tag := "marathon",
      consulNameSeparator := ".", ignoredHealthChecks := "" }
    (fun _ => .ok "10.0.0.5")
    { id := "t1", host := "h", ports := [8080], appID := "a" }
    { id := "a", labels := [],
      healthChecks := [{ protocol := "TCP", port := 9000, intervalSeconds := 60,
                         timeoutSeconds := 20 }],
      registrationIntents := fun _ _ => [⟨"n1", 80, []⟩, ⟨"n2", 81, []⟩] }
    _ (by decide)

/-- C5: for every agent and per-datacenter query outcome, the datacenter
fan-out of a catalog read concatenates per-datacenter results in
datacenter-enumeration order, and the first per-datacenter error — including
a datacenter-discovery failure — aborts the whole operation with that error,
discarding partial results. -/
theorem dc_fanout_concatenation_and_fail_fast (cfg : Config) (cat : Catalog ε) (name : String) :
    (∀ e : ε, cat.datacenters = .error e → getServicesUsingAgent cfg cat name = .error e) ∧
    (∀ (dcs : List String) (f : String → List CatalogService),
      cat.datacenters = .ok dcs →
      (∀ dc ∈ dcs, cat.service name cfg.tag dc = .ok (f dc)) →
      getServicesUsingAgent cfg cat name =
        .ok (dcs.flatMap fun dc => consulServicesToServices (f dc))) ∧
    (∀ (pre : List String) (dc : String) (post : List String) (e : ε),
      cat.datacenters = .ok (pre ++ dc :: post) →
      (∀ d ∈ pre, ∃ cs, cat.service name cfg.tag d = .ok cs) →
      cat.service name cfg.tag dc = .error e →
      getServicesUsingAgent cfg cat name = .error e) := by
  refine ⟨?_, ?_, ?_⟩
  · intro e he
    simp only [getServicesUsingAgent, dcAwareQueriesForAllDCs, he]
  · intro dcs f hdcs hok
    have h := getServicesUsingAgentAux_all_ok cfg cat name
      (fun q => f q.datacenter) (dcs.map fun dc => { datacenter := dc })
      (by
        intro q hq
        obtain ⟨dc, hdc, rfl⟩ := List.mem_map.mp hq
        exact hok dc hdc)
    simp only [getServicesUsingAgent, dcAwareQueriesForAllDCs, hdcs, h, List.flatMap_map]
  · intro pre dc post e hdcs hpre hdc
    have h := getServicesUsingAgentAux_first_error cfg cat name
      (pre.map fun d => { datacenter := d }) { datacenter := dc }
      (post.map fun d => { datacenter := d }) e
      (by
        intro p hp
        obtain ⟨d, hd, rfl⟩ := List.mem_map.mp hp
        exact hpre d hd)
      hdc
    simp only [getServicesUsingAgent, dcAwareQueriesForAllDCs, hdcs, List.map_append,
      List.map_cons, h]

/-- C5 witness: a two-datacenter catalog where both queries succeed; the
result is the concatenation in datacenter order. -/
theorem dc_fanout_concatenation_and_fail_fast_witness :
    getServicesUsingAgent (ε := String)
      { requestRetries := 0, agentFailuresTolerance := 0, tag := "marathon",
        consulNameSeparator := ".", ignoredHealthChecks := "" }
      { datacenters := .ok ["dc1", "dc2"],
        services := fun _ => .ok [],
        service := fun _ _ dc =>
          if dc = "dc1" then .ok [{ serviceID := "s1", serviceName := "x",
                                    serviceTags := ["marathon"], address := "a1" }]
          else .ok [{ serviceID := "s2", serviceName := "x",
                      serviceTags := ["marathon"], address := "a2" }] }
      "x" =
    .ok [{ id := "s1", name := "x", tags := ["marathon"], registeringAgentAddress := "a1" },
         { id := "s2", name := "x", tags := ["marathon"], registeringAgentAddress := "a2" }] := by
  exact (dc_fanout_concatenation_and_fail_fast _ _ _).2.1 ["dc1", "dc2"]
    (fun dc =>
      if dc = "dc1" then [{ serviceID := "s1", serviceName := "x",
                            serviceTags := ["marathon"], address := "a1" }]
      else [{ serviceID := "s2", serviceName := "x",
              serviceTags := ["marathon"], address := "a2" }])
    rfl (by decide)

lemma batchErrors_eq_filterMap (outcome : α → Option ε) :
    ∀ items : List α, batchErrors outcome items = items.filterMap outcome := by
  intro items
  induction items with
  | nil => rfl
  | cons item rest ih =>
    cases h : outcome item with
    | none => simp [batchErrors, h, ih, List.filterMap_cons]
    | some e => simp [batchErrors, h, ih, List.filterMap_cons]

lemma mergeErrorsOrNil_eq_none (errs : List ε) (msg : String) :
    mergeErrorsOrNil errs msg = none ↔ errs = [] := by
  cases errs with
  | nil => simp [mergeErrorsOrNil]
  | cons e rest => simp [mergeErrorsOrNil]

lemma mergeErrorsOrNil_eq_merged (errs : List ε) (msg : String) (h : errs ≠ []) :
    mergeErrorsOrNil errs msg = some (.merged msg errs) := by
  cases errs with
  | nil => exact absurd rfl h
  | cons e rest => simp [mergeErrorsOrNil]

/-- C9: every registration of a batch submitted by `Register` is attempted
independently — none is skipped because an earlier one failed, none is rolled
back, and each item's outcome depends only on that item; the overall result
is success exactly when every sub-registration succeeded, and otherwise all
per-registration errors are merged, in order, into one aggregate error. -/
theorem register_batch_independent_and_merged_errors (getAgent : String → Option ε)
    (serviceRegister : AgentServiceRegistration → Option ε)
    (services : List AgentServiceRegistration) :
    (registerMultipleServices getAgent serviceRegister services).2 = services ∧
    batchErrors (register getAgent serviceRegister) services =
      services.filterMap (register getAgent serviceRegister) ∧
    ((registerMultipleServices getAgent serviceRegister services).1 = none ↔
      ∀ s ∈ services, register getAgent serviceRegister s = none) ∧
    (services.filterMap (register getAgent serviceRegister) ≠ [] →
      (registerMultipleServices getAgent serviceRegister services).1 =
        some (.merged "registering services"
          (services.filterMap (register getAgent serviceRegister)))) := by
  refine ⟨rfl, batchErrors_eq_filterMap _ services, ?_, ?_⟩
  · simp only [registerMultipleServices, batchErrors_eq_filterMap, mergeErrorsOrNil_eq_none]
    exact List.filterMap_eq_nil_iff
  · intro hne
    simp only [registerMultipleServices, batchErrors_eq_filterMap]
    exact mergeErrorsOrNil_eq_merged _ _ hne

/-- C9 witness: a two-item batch whose first item fails on submission and
whose second succeeds — both are attempted and the result is the aggregate
of exactly the first item's error. -/
theorem register_batch_independent_and_merged_errors_witness :
    ([({ id := "i1", name := "n1", port := 80, address := "a1", tags := [],
         checks := [] } : AgentServiceRegistration),
      { id := "i2", name := "n2", port := 81, address := "a2", tags := [], checks := [] }].filterMap
      (register (ε := String) (fun _ => none)
        (fun s => if s.id = "i1" then some "boom" else none)) ≠ []) ∧
    (registerMultipleServices (ε := String) (fun _ => none)
      (fun s => if s.id = "i1" then some "boom" else none)
      [{ id := "i1", name := "n1", port := 80, address := "a1", tags := [], checks := [] },
       { id := "i2", name := "n2", port := 81, address := "a2", tags := [], checks := [] }]).1 =
      some (.merged "registering services" ["boom"]) := by
  refine ⟨by decide, ?_⟩
  have h := (register_batch_independent_and_merged_errors (ε := String) (fun _ => none)
    (fun s => if s.id = "i1" then some "boom" else none)
    [{ id := "i1", name := "n1", port := 80, address := "a1", tags := [], checks := [] },
     { id := "i2", name := "n2", port := 81, address := "a2", tags := [], checks := [] }]).2.2.2
    (by decide)
  rw [h]
  decide

/-- C8: whenever the retrying task-tag query finds zero matching services,
`DeregisterByTask` fails with the no-matching-service error and invokes no
deregistration. -/
theorem deregister_by_task_no_matches_fails_without_mutation (cfg : Config)
    (choose : List Agent → Option Agent) (clientOf : Nat → String → Catalog ε)
    (deregOutcome : Service → Option ε) (pool : List Agent) (taskID : String)
    (h : (findServicesByTaskID cfg choose clientOf pool taskID).result = .ok []) :
    deregisterByTask cfg choose clientOf deregOutcome pool taskID =
      (.error (.noMatchingService taskID), []) := by
  unfold deregisterByTask
  rw [h]
  rfl

/-- C8 witness: a one-agent pool whose catalog lists one datacenter and no
services at all — the find succeeds with zero matches and `DeregisterByTask`
returns the no-matching-service error having deregistered nothing. -/
theorem deregister_by_task_no_matches_fails_without_mutation_witness :
    (findServicesByTaskID (ε := String)
        { requestRetries := 2, agentFailuresTolerance := 1, tag := "marathon",
          consulNameSeparator := ".", ignoredHealthChecks := "" }
        (fun pool => pool.head?)
        (fun _ _ => { datacenters := .ok ["dc1"], services := fun _ => .ok [],
                      service := fun _ _ _ => .ok [] })
        [{ ip := "a1", failures := 0 }] "t1").result = .ok [] ∧
    deregisterByTask (ε := String)
        { requestRetries := 2, agentFailuresTolerance := 1, tag := "marathon",
          consulNameSeparator := ".", ignoredHealthChecks := "" }
        (fun pool => pool.head?)
        (fun _ _ => { datacenters := .ok ["dc1"], services := fun _ => .ok [],
                      service := fun _ _ _ => .ok [] })
        (fun _ => some "never")
        [{ ip := "a1", failures := 0 }] "t1" =
      (.error (.noMatchingService "t1"), []) := by
  refine ⟨by decide, ?_⟩
  exact deregister_by_task_no_matches_fails_without_mutation _ _ _ _ _ _ (by decide)

lemma marathonToConsulChecksAux_built_from (task : MarathonTask) (addr : String)
    (ignored : List String) :
    ∀ (hcs : List HealthCheck) (l : List AgentServiceCheck),
      marathonToConsulChecksAux task addr ignored hcs = some l →
      ∀ ch ∈ l, ch.status = "passing" ∧
        ∃ hc ∈ hcs, ch.interval = intStr hc.intervalSeconds ++ "s" ∧
          ch.timeout = intStr hc.timeoutSeconds ++ "s" := by
  intro hcs
  induction hcs with
  | nil =>
    intro l h ch hch
    injection h with h
    rw [← h] at hch
    cases hch
  | cons check rest ih =>
    intro l h ch hch
    have step : ∀ l' : List AgentServiceCheck,
        marathonToConsulChecksAux task addr ignored rest = some l' →
        ∀ ch' ∈ l', ch'.status = "passing" ∧
          ∃ hc ∈ check :: rest, ch'.interval = intStr hc.intervalSeconds ++ "s" ∧
            ch'.timeout = intStr hc.timeoutSeconds ++ "s" := by
      intro l' h' ch' hch'
      obtain ⟨hs, hc, hm, hi⟩ := ih l' h' ch' hch'
      exact ⟨hs, hc, List.mem_cons_of_mem _ hm, hi⟩
    have fresh : ∀ x : AgentServiceCheck, ∀ l' : List AgentServiceCheck,
        marathonToConsulChecksAux task addr ignored rest = some l' →
        ch ∈ x :: l' →
        x.status = "passing" →
        x.interval = intStr check.intervalSeconds ++ "s" →
        x.timeout = intStr check.timeoutSeconds ++ "s" →
        ch.status = "passing" ∧
          ∃ hc ∈ check :: rest, ch.interval = intStr hc.intervalSeconds ++ "s" ∧
            ch.timeout = intStr hc.timeoutSeconds ++ "s" := by
      intro x l' h' hmem hxs hxi hxt
      rcases List.mem_cons.mp hmem with heq | hmem'
      · subst heq
        exact ⟨hxs, check, List.mem_cons_self check rest, hxi, hxt⟩
      · exact step l' h' ch hmem'
    simp only [marathonToConsulChecksAux] at h
    split at h
    · exact step l h ch hch
    · split at h
      · cases h
      · split at h
        · -- HTTP arm
          split at h
          · cases hr : marathonToConsulChecksAux task addr ignored rest with
            | none => rw [hr] at h; cases h
            | some l' =>
              rw [hr] at h
              injection h with h
              rw [← h] at hch
              exact fresh _ l' hr hch rfl rfl rfl
          · exact step l h ch hch
        · -- HTTPS arm
          split at h
          · cases hr : marathonToConsulChecksAux task addr ignored rest with
            | none => rw [hr] at h; cases h
            | some l' =>
              rw [hr] at h
              injection h with h
              rw [← h] at hch
              exact fresh _ l' hr hch rfl rfl rfl
          · exact step l h ch hch
        · -- TCP arm
          cases hr : marathonToConsulChecksAux task addr ignored rest with
          | none => rw [hr] at h; cases h
          | some l' =>
            rw [hr] at h
            injection h with h
            rw [← h] at hch
            exact fresh _ l' hr hch rfl rfl rfl
        · -- COMMAND arm
          cases hr : marathonToConsulChecksAux task addr ignored rest with
          | none => rw [hr] at h; cases h
          | some l' =>
            rw [hr] at h
            injection h with h
            rw [← h] at hch
            exact fresh _ l' hr hch rfl rfl rfl
        · -- unrecognized protocol arm
          exact step l h ch hch

/-- C7: the health-check translation maps `{Protocol: "HTTP", Path: "/health",
PortIndex: 0}` over `Ports = [8080]` and address `10.0.0.5` to an HTTP check
targeting `http://10.0.0.5:8080/health`; `{Protocol: "TCP", Port: 9000}` to a
TCP check at `address:9000`; `{Protocol: "FOO"}` to no check at all; and every
built check carries the source check's `IntervalSeconds` as interval,
`TimeoutSeconds` as timeout, and the initial status `"passing"`. -/
theorem health_check_protocol_mapping :
    marathonToConsulChecks
      { requestRetries := 0, agentFailuresTolerance := 0, tag := "marathon",
        consulNameSeparator := ".", ignoredHealthChecks := "" }
      { id := "t1", host := "h", ports := [8080], appID := "a" }
      [{ path := "/health", portIndex := 0, port := 0, protocol := "HTTP",
         intervalSeconds := 60, timeoutSeconds := 20 }] "10.0.0.5" =
      some [{ interval := "60s", timeout := "20s", status := "passing",
              http := "http://10.0.0.5:8080/health" }] ∧
    marathonToConsulChecks
      { requestRetries := 0, agentFailuresTolerance := 0, tag := "marathon",
        consulNameSeparator := ".", ignoredHealthChecks := "" }
      { id := "t1", host := "h", ports := [8080], appID := "a" }
      [{ protocol := "TCP", port := 9000, intervalSeconds := 60, timeoutSeconds := 20 }]
      "10.0.0.5" =
      some [{ interval := "60s", timeout := "20s", status := "passing",
              tcp := "10.0.0.5:9000" }] ∧
    marathonToConsulChecks
      { requestRetries := 0, agentFailuresTolerance := 0, tag := "marathon",
        consulNameSeparator := ".", ignoredHealthChecks := "" }
      { id := "t1", host := "h", ports := [8080], appID := "a" }
      [{ protocol := "FOO", port := 9000, intervalSeconds := 60, timeoutSeconds := 20 }]
      "10.0.0.5" = some [] ∧
    (∀ (c : Config) (task : MarathonTask) (hcs : List HealthCheck) (addr : String)
       (l : List AgentServiceCheck),
      marathonToConsulChecks c task hcs addr = some l →
      ∀ ch ∈ l, ch.status = "passing" ∧
        ∃ hc ∈ hcs, ch.interval = intStr hc.intervalSeconds ++ "s" ∧
          ch.timeout = intStr hc.timeoutSeconds ++ "s") := by
  refine ⟨by decide, by decide, by decide, ?_⟩
  intro c task hcs addr l h
  exact marathonToConsulChecksAux_built_from task addr (getIgnoredHealthCheckTypes c) hcs l h

/-- C7 witness: the interval/timeout/status clause applied to the concrete
HTTP example. -/
theorem health_check_protocol_mapping_witness :
    ({ interval := "60s", timeout := "20s", status := "passing",
       http := "http://10.0.0.5:8080/health" } : AgentServiceCheck).status = "passing" ∧
    ∃ hc ∈ [({ path := "/health", portIndex := 0, port := 0, protocol := "HTTP",
               intervalSeconds := 60, timeoutSeconds := 20 } : HealthCheck)],
      ({ interval := "60s", timeout := "20s", status := "passing",
         http := "http://10.0.0.5:8080/health" } : AgentServiceCheck).interval =
          intStr hc.intervalSeconds ++ "s" ∧
      ({ interval := "60s", timeout := "20s", status := "passing",
         http := "http://10.0.0.5:8080/health" } : AgentServiceCheck).timeout =
          intStr hc.timeoutSeconds ++ "s" := by
  exact health_check_protocol_mapping.2.2.2
    { requestRetries := 0, agentFailuresTolerance := 0, tag := "marathon",
      consulNameSeparator := ".", ignoredHealthChecks := "" }
    { id := "t1", host := "h", ports := [8080], appID := "a" }
    [{ path := "/health", portIndex := 0, port := 0, protocol := "HTTP",
       intervalSeconds := 60, timeoutSeconds := 20 }] "10.0.0.5"
    [{ interval := "60s", timeout := "20s", status := "passing",
       http := "http://10.0.0.5:8080/health" }] (by decide)
    _ (List.mem_singleton.mpr rfl)

/-- C6 counterexample: with `IgnoredHealthCheckTypes = "tcp, command"`, a
check whose protocol is the lower-case `"tcp"` — which case-insensitively
names the ignored entry — is not matched by the ignored list (the comparison
is case-sensitive in the check's protocol), and instead of being skipped it
reaches effective-port resolution, which here faults instead of proceeding. -/
theorem ignored_health_check_types_case_counterexample :
    toUpperGo "tcp" = "TCP" ∧
    getIgnoredHealthCheckTypes
      { requestRetries := 0, agentFailuresTolerance := 0, tag := "marathon",
        consulNameSeparator := ".", ignoredHealthChecks := "tcp, command" } =
      ["TCP", "COMMAND"] ∧
    containsGo
      (getIgnoredHealthCheckTypes
        { requestRetries := 0, agentFailuresTolerance := 0, tag := "marathon",
          consulNameSeparator := ".", ignoredHealthChecks := "tcp, command" }) "tcp" = false ∧
    marathonToConsulChecks
      { requestRetries := 0, agentFailuresTolerance := 0, tag := "marathon",
        consulNameSeparator := ".", ignoredHealthChecks := "tcp, command" }
      { id := "t1", host := "h", ports := [], appID := "a" }
      [{ protocol := "tcp", port := 0, portIndex := 0 }] "10.0.0.5" = none ∧
    marathonToConsulChecks
      { requestRetries := 0, agentFailuresTolerance := 0, tag := "marathon",
        consulNameSeparator := ".", ignoredHealthChecks := "tcp, command" }
      { id := "t1", host := "h", ports := [], appID := "a" }
      [] "10.0.0.5" = some [] := by
  exact ⟨by decide, by decide, by decide, by decide, by decide⟩

/-- C6 (amended): a health check whose protocol exactly equals an entry of
the configured ignored-types list is skipped before port resolution and never
built; the matching is insensitive to the casing and surrounding whitespace
of the entries of the configured comma-separated list (they are upper-cased
and trimmed), but case-sensitive in the check's own protocol value; with
`IgnoredHealthCheckTypes = "tcp, command"` every check whose protocol is
exactly `"TCP"` or `"COMMAND"` is dropped. -/
theorem ignored_health_check_types_matching_amended :
    (∀ (c : Config) (task : MarathonTask) (addr : String) (ck : HealthCheck)
       (rest : List HealthCheck),
      containsGo (getIgnoredHealthCheckTypes c) ck.protocol = true →
      marathonToConsulChecks c task (ck :: rest) addr =
        marathonToConsulChecks c task rest addr) ∧
    (∀ c₁ c₂ : Config,
      toUpperGo c₁.ignoredHealthChecks = toUpperGo c₂.ignoredHealthChecks →
      getIgnoredHealthCheckTypes c₁ = getIgnoredHealthCheckTypes c₂) ∧
    getIgnoredHealthCheckTypes
      { requestRetries := 0, agentFailuresTolerance := 0, tag := "marathon",
        consulNameSeparator := ".", ignoredHealthChecks := "  TcP ,CoMmAnD  " } =
      ["TCP", "COMMAND"] ∧
    marathonToConsulChecks
      { requestRetries := 0, agentFailuresTolerance := 0, tag := "marathon",
        consulNameSeparator := ".", ignoredHealthChecks := "tcp, command" }
      { id := "t1", host := "h", ports := [8080], appID := "a" }
      [{ protocol := "TCP", port := 9000 }, { protocol := "COMMAND", command := "c" }]
      "10.0.0.5" = some [] := by
  refine ⟨?_, ?_, by decide, by decide⟩
  · intro c task addr ck rest h
    simp only [marathonToConsulChecks, marathonToConsulChecksAux, h, if_true]
  · intro c₁ c₂ h
    simp only [getIgnoredHealthCheckTypes, splitComma, h]

/-- C6 witness: skipping applied to a concrete exactly-matching check. -/
theorem ignored_health_check_types_matching_amended_witness :
    containsGo
      (getIgnoredHealthCheckTypes
        { requestRetries := 0, agentFailuresTolerance := 0, tag := "marathon",
          consulNameSeparator := ".", ignoredHealthChecks := "tcp, command" }) "TCP" = true ∧
    marathonToConsulChecks
      { requestRetries := 0, agentFailuresTolerance := 0, tag := "marathon",
        consulNameSeparator := ".", ignoredHealthChecks := "tcp, command" }
      { id := "t1", host := "h", ports := [], appID := "a" }
      [{ protocol := "TCP", port := 0, portIndex := 5 }] "10.0.0.5" =
      marathonToConsulChecks
        { requestRetries := 0, agentFailuresTolerance := 0, tag := "marathon",
          consulNameSeparator := ".", ignoredHealthChecks := "tcp, command" }
        { id := "t1", host := "h", ports := [], appID := "a" } [] "10.0.0.5" := by
  refine ⟨by decide, ?_⟩
  exact ignored_health_check_types_matching_amended.1
    { requestRetries := 0, agentFailuresTolerance := 0, tag := "marathon",
      consulNameSeparator := ".", ignoredHealthChecks := "tcp, command" }
    { id := "t1", host := "h", ports := [], appID := "a" } "10.0.0.5"
    { protocol := "TCP", port := 0, portIndex := 5 } [] (by decide)

lemma marathonToConsulChecksAux_cons_total (task : MarathonTask) (addr : String)
    (ignored : List String) (ck : HealthCheck) (rest : List HealthCheck)
    (l : List AgentServiceCheck)
    (hnotig : containsGo ignored ck.protocol = false)
    (hl : marathonToConsulChecksAux task addr ignored rest = some l)
    (port : Int)
    (hport : (if ck.port ≠ 0 then some ck.port else task.ports[ck.portIndex]?) = some port) :
    ∃ l', marathonToConsulChecksAux task addr ignored (ck :: rest) = some l' := by
  simp only [marathonToConsulChecksAux, hnotig, Bool.false_eq_true, if_false, hport]
  split
  · split
    · rw [hl]; exact ⟨_, rfl⟩
    · exact ⟨l, hl⟩
  · split
    · rw [hl]; exact ⟨_, rfl⟩
    · exact ⟨l, hl⟩
  · rw [hl]; exact ⟨_, rfl⟩
  · rw [hl]; exact ⟨_, rfl⟩
  · exact ⟨l, hl⟩

lemma marathonToConsulChecksAux_total (task : MarathonTask) (addr : String)
    (ignored : List String) :
    ∀ hcs : List HealthCheck,
      (∀ ck ∈ hcs, containsGo ignored ck.protocol = false → ck.port = 0 →
        ck.portIndex < task.ports.length) →
      ∃ l, marathonToConsulChecksAux task addr ignored hcs = some l := by
  intro hcs
  induction hcs with
  | nil => intro _; exact ⟨[], rfl⟩
  | cons ck rest ih =>
    intro hcond
    obtain ⟨l, hl⟩ := ih fun x hx => hcond x (List.mem_cons_of_mem _ hx)
    cases hig : containsGo ignored ck.protocol with
    | true =>
      refine ⟨l, ?_⟩
      simp only [marathonToConsulChecksAux, hig, if_true]
      exact hl
    | false =>
      by_cases hp : ck.port = 0
      · have hidx := hcond ck (List.mem_cons_self ck rest) hig hp
        have hport : (if ck.port ≠ 0 then some ck.port else task.ports[ck.portIndex]?) =
            some (task.ports[ck.portIndex]) := by
          rw [if_neg (by simp [hp])]
          exact List.getElem?_eq_getElem hidx
        exact marathonToConsulChecksAux_cons_total task addr ignored ck rest l hig hl _ hport
      · have hport : (if ck.port ≠ 0 then some ck.port else task.ports[ck.portIndex]?) =
            some ck.port := if_pos hp
        exact marathonToConsulChecksAux_cons_total task addr ignored ck rest l hig hl _ hport

/-- C4 counterexample: a health check with `Port = 0` and a `PortIndex` not
covered by the task's ports makes the whole check build fault (the Go code
indexes `task.Ports[check.PortIndex]` unguarded, a runtime panic), aborting
the registration instead of merely dropping the offending check. -/
theorem check_build_aborts_on_bad_port_index_counterexample :
    ¬ (0 < ([] : List Int).length) ∧
    marathonToConsulChecks
      { requestRetries := 0, agentFailuresTolerance := 0, tag := "marathon",
        consulNameSeparator := ".", ignoredHealthChecks := "" }
      { id := "t1", host := "h", ports := [], appID := "a" }
      [{ path := "/health", portIndex := 0, port := 0, protocol := "HTTP" }] "10.0.0.5" =
      none ∧
    marathonToConsulChecks
      { requestRetries := 0, agentFailuresTolerance := 0, tag := "marathon",
        consulNameSeparator := ".", ignoredHealthChecks := "" }
      { id := "t1", host := "h", ports := [], appID := "a" } [] "10.0.0.5" = some [] := by
  exact ⟨by decide, by decide, by decide⟩

/-- C4 (amended): provided every non-ignored check with `Port = 0` has a
`PortIndex` covered by the task's ports, building the check set never aborts
the registration; an unparsable path on an HTTP/HTTPS check and an
unrecognized protocol only cause the offending check to be dropped, the
translation proceeding with whatever checks were successfully built, possibly
zero. -/
theorem check_build_never_aborts_amended :
    (∀ (c : Config) (task : MarathonTask) (hcs : List HealthCheck) (addr : String),
      (∀ ck ∈ hcs, containsGo (getIgnoredHealthCheckTypes c) ck.protocol = false →
        ck.port = 0 → ck.portIndex < task.ports.length) →
      ∃ l, marathonToConsulChecks c task hcs addr = some l) ∧
    (∀ (c : Config) (task : MarathonTask) (addr : String) (ck : HealthCheck)
       (rest : List HealthCheck) (msg : String),
      containsGo (getIgnoredHealthCheckTypes c) ck.protocol = false →
      (if ck.port ≠ 0 then some ck.port else task.ports[ck.portIndex]?).isSome = true →
      (ck.protocol = "HTTP" ∨ ck.protocol = "HTTPS") →
      parseRequestURI ck.path = .error msg →
      marathonToConsulChecks c task (ck :: rest) addr =
        marathonToConsulChecks c task rest addr) ∧
    (∀ (c : Config) (task : MarathonTask) (addr : String) (ck : HealthCheck)
       (rest : List HealthCheck),
      containsGo (getIgnoredHealthCheckTypes c) ck.protocol = false →
      (if ck.port ≠ 0 then some ck.port else task.ports[ck.portIndex]?).isSome = true →
      ck.protocol ≠ "HTTP" → ck.protocol ≠ "HTTPS" → ck.protocol ≠ "TCP" →
      ck.protocol ≠ "COMMAND" →
      marathonToConsulChecks c task (ck :: rest) addr =
        marathonToConsulChecks c task rest addr) := by
  refine ⟨?_, ?_, ?_⟩
  · intro c task hcs addr hcond
    exact marathonToConsulChecksAux_total task addr (getIgnoredHealthCheckTypes c) hcs hcond
  · intro c task addr ck rest msg hnotig hsome hhttp hparse
    obtain ⟨port, hport⟩ := Option.isSome_iff_exists.mp hsome
    simp only [marathonToConsulChecks, marathonToConsulChecksAux, hnotig,
      Bool.false_eq_true, if_false, hport]
    split
    · split
      · rename_i heq2
        rw [hparse] at heq2
        cases heq2
      · rfl
    · split
      · rename_i heq2
        rw [hparse] at heq2
        cases heq2
      · rfl
    · rename_i heq
      rcases hhttp with h1 | h1 <;> rw [h1] at heq <;> exact absurd heq (by decide)
    · rename_i heq
      rcases hhttp with h1 | h1 <;> rw [h1] at heq <;> exact absurd heq (by decide)
    · rename_i hn1 hn2 hn3 hn4
      rcases hhttp with h1 | h1
      · exact absurd h1 hn1
      · exact absurd h1 hn2
  · intro c task addr ck rest hnotig hsome hn1 hn2 hn3 hn4
    obtain ⟨port, hport⟩ := Option.isSome_iff_exists.mp hsome
    simp only [marathonToConsulChecks, marathonToConsulChecksAux, hnotig,
      Bool.false_eq_true, if_false, hport]

/-- C4 witness: the totality and drop clauses at a concrete input — an
unparsable path and an unknown protocol, both with resolvable ports, build
zero checks without aborting. -/
theorem check_build_never_aborts_amended_witness :
    ∃ l, marathonToConsulChecks
      { requestRetries := 0, agentFailuresTolerance := 0, tag := "marathon",
        consulNameSeparator := ".", ignoredHealthChecks := "" }
      { id := "t1", host := "h", ports := [8080], appID := "a" }
      [{ path := "health", portIndex := 0, port := 0, protocol := "HTTP" },
       { protocol := "FOO", port := 9000 }] "10.0.0.5" = some l := by
  exact check_build_never_aborts_amended.1
    { requestRetries := 0, agentFailuresTolerance := 0, tag := "marathon",
      consulNameSeparator := ".", ignoredHealthChecks := "" }
    { id := "t1", host := "h", ports := [8080], appID := "a" }
    [{ path := "health", portIndex := 0, port := 0, protocol := "HTTP" },
     { protocol := "FOO", port := 9000 }] "10.0.0.5" (by decide)

lemma digitCharGo_inj : ∀ d < 10, ∀ e < 10, digitCharGo d = digitCharGo e → d = e := by decide

lemma digitCharGo_ne_underscore : ∀ d < 10, digitCharGo d ≠ '_' := by decide

lemma digitCharGo_ne_dash : ∀ d < 10, digitCharGo d ≠ '-' := by decide

lemma natChars_ne_nil : ∀ fuel n, 0 < fuel → natChars fuel n ≠ [] := by
  intro fuel n hf
  cases fuel with
  | zero => omega
  | succ f =>
    simp only [natChars]
    by_cases h10 : n < 10
    · simp [h10]
    · simp [h10]

lemma natChars_fuel_irrel : ∀ f g n, n < f → n < g → natChars f n = natChars g n := by
  intro f
  induction f with
  | zero => intro g n hf; omega
  | succ f' ihf =>
    intro g n hf hg
    cases g with
    | zero => omega
    | succ g' =>
      simp only [natChars]
      by_cases h10 : n < 10
      · simp [h10]
      · have hdiv : n / 10 < n := Nat.div_lt_self (by omega) (by omega)
        have hdf : n / 10 < f' := by omega
        have hdg : n / 10 < g' := by omega
        simp only [h10, if_false]
        rw [ihf g' (n / 10) hdf hdg]

lemma natChars_all_digits : ∀ f n, ∀ c ∈ natChars f n, ∃ d, d < 10 ∧ c = digitCharGo d := by
  intro f
  induction f with
  | zero => intro n c hc; cases hc
  | succ f' ihf =>
    intro n c hc
    simp only [natChars] at hc
    by_cases h10 : n < 10
    · rw [if_pos h10] at hc
      rcases List.mem_singleton.mp hc with rfl
      exact ⟨n, h10, rfl⟩
    · rw [if_neg h10] at hc
      rcases List.mem_append.mp hc with h | h
      · exact ihf (n / 10) c h
      · rcases List.mem_singleton.mp h with rfl
        exact ⟨n % 10, Nat.mod_lt n (by omega), rfl⟩

lemma natChars_head_digit : ∀ f n, n < f →
    ∃ d, d < 10 ∧ ∃ t, natChars f n = digitCharGo d :: t := by
  intro f
  induction f with
  | zero => intro n hf; omega
  | succ f' ihf =>
    intro n hf
    simp only [natChars]
    by_cases h10 : n < 10
    · exact ⟨n, h10, [], by rw [if_pos h10]⟩
    · have hdiv : n / 10 < n := Nat.div_lt_self (by omega) (by omega)
      obtain ⟨d, hd, t, ht⟩ := ihf (n / 10) (by omega)
      exact ⟨d, hd, t ++ [digitCharGo (n % 10)], by rw [if_neg h10, ht]; rfl⟩

lemma natChars_inj : ∀ n m, natChars (n + 1) n = natChars (m + 1) m → n = m := by
  intro n
  induction n using Nat.strong_induction_on with
  | _ n ih =>
    intro m h
    by_cases hn : n < 10 <;> by_cases hm : m < 10
    · simp only [natChars, if_pos hn, if_pos hm] at h
      injection h with h1 _
      exact digitCharGo_inj n hn m hm h1
    · exfalso
      simp only [natChars, if_pos hn, if_neg hm] at h
      have hlen := congrArg List.length h
      have hne := natChars_ne_nil m (m / 10) (by omega)
      simp only [List.length_singleton, List.length_append] at hlen
      cases hhd : natChars m (m / 10) with
      | nil => exact hne hhd
      | cons c t => rw [hhd] at hlen; simp at hlen
    · exfalso
      simp only [natChars, if_neg hn, if_pos hm] at h
      have hlen := congrArg List.length h
      have hne := natChars_ne_nil n (n / 10) (by omega)
      simp only [List.length_singleton, List.length_append] at hlen
      cases hhd : natChars n (n / 10) with
      | nil => exact hne hhd
      | cons c t => rw [hhd] at hlen; simp at hlen
    · simp only [natChars, if_neg hn, if_neg hm] at h
      obtain ⟨hpre, hlast⟩ := List.append_inj' h rfl
      injection hlast with hlast _
      have hmod : n % 10 = m % 10 :=
        digitCharGo_inj _ (Nat.mod_lt n (by omega)) _ (Nat.mod_lt m (by omega)) hlast
      have hdivn : n / 10 < n := Nat.div_lt_self (by omega) (by omega)
      have hdivm : m / 10 < m := Nat.div_lt_self (by omega) (by omega)
      rw [natChars_fuel_irrel n (n / 10 + 1) (n / 10) hdivn (by omega),
        natChars_fuel_irrel m (m / 10 + 1) (m / 10) hdivm (by omega)] at hpre
      have hdiv := ih (n / 10) hdivn (m / 10) hpre
      omega

lemma natStr_inj : ∀ n m : Nat, natStr n = natStr m → n = m := by
  intro n m h
  unfold natStr at h
  injection h with h
  exact natChars_inj n m h

lemma natStr_head_digit (n : Nat) :
    ∃ d, d < 10 ∧ ∃ t, (natStr n).data = digitCharGo d :: t := by
  exact natChars_head_digit (n + 1) n (by omega)

lemma natStr_no_underscore (n : Nat) : ∀ c ∈ (natStr n).data, c ≠ '_' := by
  intro c hc
  obtain ⟨d, hd, rfl⟩ := natChars_all_digits (n + 1) n c hc
  exact digitCharGo_ne_underscore d hd

lemma intStr_no_underscore (i : Int) : ∀ c ∈ (intStr i).data, c ≠ '_' := by
  intro c hc
  unfold intStr at hc
  by_cases hi : i < 0
  · rw [if_pos hi, String.data_append] at hc
    rcases List.mem_append.mp hc with h | h
    · have : c = '-' := by simpa using h
      subst this
      decide
    · exact natStr_no_underscore _ c h
  · rw [if_neg hi] at hc
    exact natStr_no_underscore _ c hc

lemma intStr_inj : ∀ i j : Int, intStr i = intStr j → i = j := by
  intro i j h
  unfold intStr at h
  by_cases hi : i < 0 <;> by_cases hj : j < 0
  · rw [if_pos hi, if_pos hj] at h
    have hd := congrArg String.data h
    rw [String.data_append, String.data_append] at hd
    have hcancel : (natStr (-i).toNat).data = (natStr (-j).toNat).data :=
      List.append_cancel_left hd
    have := natChars_inj _ _ hcancel
    omega
  · rw [if_pos hi, if_neg hj] at h
    have hd := congrArg String.data h
    rw [String.data_append] at hd
    obtain ⟨d, hdlt, t, ht⟩ := natStr_head_digit j.toNat
    rw [ht] at hd
    have hdash : ("-" : String).data = ['-'] := rfl
    rw [hdash, List.singleton_append] at hd
    injection hd with hd1 _
    exact absurd hd1.symm (digitCharGo_ne_dash d hdlt)
  · rw [if_neg hi, if_pos hj] at h
    have hd := congrArg String.data h
    rw [String.data_append] at hd
    obtain ⟨d, hdlt, t, ht⟩ := natStr_head_digit i.toNat
    rw [ht] at hd
    have hdash : ("-" : String).data = ['-'] := rfl
    rw [hdash, List.singleton_append] at hd
    injection hd with hd1 _
    exact absurd hd1 (digitCharGo_ne_dash d hdlt)
  · rw [if_neg hi, if_neg hj] at h
    have hd := congrArg String.data h
    have := natChars_inj _ _ hd
    omega

lemma append_sep_inj : ∀ (a x b y : List Char),
    (∀ c ∈ x, c ≠ '_') → (∀ c ∈ y, c ≠ '_') →
    a ++ '_' :: x = b ++ '_' :: y → a = b ∧ x = y := by
  intro a
  induction a with
  | nil =>
    intro x b y hx hy h
    cases b with
    | nil =>
      simp only [List.nil_append] at h
      injection h with _ h2
      exact ⟨rfl, h2⟩
    | cons d b' =>
      exfalso
      simp only [List.nil_append, List.cons_append] at h
      injection h with h1 h2
      have : ('_' : Char) ∈ x := by
        rw [h2]
        exact List.mem_append_right b' (List.mem_cons_self '_' y)
      exact hx '_' this rfl
  | cons c a' ih =>
    intro x b y hx hy h
    cases b with
    | nil =>
      exfalso
      simp only [List.nil_append, List.cons_append] at h
      injection h with h1 h2
      have : ('_' : Char) ∈ y := by
        rw [← h2]
        exact List.mem_append_right a' (List.mem_cons_self '_' x)
      exact hy '_' this rfl
    | cons d b' =>
      simp only [List.cons_append] at h
      injection h with h1 h2
      obtain ⟨hab, hxy⟩ := ih x b' y hx hy h2
      exact ⟨by rw [h1, hab], hxy⟩

lemma serviceID_inj (task : MarathonTask) (n₁ n₂ : String) (p₁ p₂ : Int)
    (h : serviceID task n₁ p₁ = serviceID task n₂ p₂) : n₁ = n₂ ∧ p₁ = p₂ := by
  unfold serviceID at h
  have hd := congrArg String.data h
  have hu : ("_" : String).data = ['_'] := rfl
  simp only [String.data_append, hu, List.append_assoc, List.singleton_append] at hd
  have hd2 := List.append_cancel_left hd
  injection hd2 with _ hd3
  obtain ⟨hn, hp⟩ := append_sep_inj n₁.data (intStr p₁).data n₂.data (intStr p₂).data
    (intStr_no_underscore p₁) (intStr_no_underscore p₂) hd3
  refine ⟨String.ext hn, intStr_inj p₁ p₂ (String.ext hp)⟩

/-- C3 counterexample: a task whose host resolves and an app yielding one
registration intent, but whose single health check has `Port = 0` and a
`PortIndex` not covered by the task's ports — the translation faults (Go
panics on `task.Ports[check.PortIndex]`), so `Register` issues zero
registrations instead of exactly one per intent. -/
theorem register_translation_fault_counterexample :
    (fun (_ : String) => (Except.ok "10.0.0.5" : Except String String)) "h" =
      .ok "10.0.0.5" ∧
    (({ id := "a", labels := [],
        healthChecks := [{ protocol := "TCP", port := 0, portIndex := 0 }],
        registrationIntents := fun _ _ => [{ name := "n", port := 80, tags := [] }] } :
        App).registrationIntents
      { id := "t1", host := "h", ports := [], appID := "a" } ".").length = 1 ∧
    marathonTaskToConsulServices
      { requestRetries := 0, agentFailuresTolerance := 0, tag := "marathon",
        consulNameSeparator := ".", ignoredHealthChecks := "" }
      (fun _ => .ok "10.0.0.5")
      { id := "t1", host := "h", ports := [], appID := "a" }
      { id := "a", labels := [],
        healthChecks := [{ protocol := "TCP", port := 0, portIndex := 0 }],
        registrationIntents := fun _ _ => [{ name := "n", port := 80, tags := [] }] } =
      .fault := by
  exact ⟨rfl, rfl, by decide⟩

/-- C3 (amended): for every task whose host resolves and whose health-check
set builds without faulting, and every app yielding N registration intents,
the translation behind `Register` produces exactly N registrations; the ID of
the i-th registration is `serviceID` of `(task, intent.name, intent.port)` —
a value depending only on the task's ID, the intent name and the intent port,
so re-running the translation on an unchanged task and app reproduces the
same IDs byte for byte — and when the intents' (name, port) pairs are
pairwise distinct the N IDs are pairwise distinct. -/
theorem register_translation_unique_deterministic_ids_amended
    (c : Config) (resolve : String → Except String String) (task : MarathonTask)
    (app : App) (ip : String) (checks : List AgentServiceCheck)
    (hres : resolve task.host = .ok ip)
    (hch : marathonToConsulChecks c task app.healthChecks ip = some checks) :
    ∃ regs, marathonTaskToConsulServices c resolve task app = .registrations regs ∧
      regs.length = (app.registrationIntents task c.consulNameSeparator).length ∧
      regs.map (fun r => r.id) =
        (app.registrationIntents task c.consulNameSeparator).map
          (fun intent => serviceID task intent.name intent.port) ∧
      (∀ (task₂ : MarathonTask) (n : String) (p : Int), task₂.id = task.id →
        serviceID task₂ n p = serviceID task n p) ∧
      (List.Pairwise (fun i₁ i₂ => i₁.name ≠ i₂.name ∨ i₁.port ≠ i₂.port)
          (app.registrationIntents task c.consulNameSeparator) →
        (regs.map (fun r => r.id)).Nodup) := by
  have htr : marathonTaskToConsulServices c resolve task app =
      .registrations ((app.registrationIntents task c.consulNameSeparator).map fun intent =>
        { id := serviceID task intent.name intent.port
          name := intent.name
          port := intent.port
          address := ip
          tags := (c.tag :: intent.tags) ++ [marathonTaskTag task.id]
          checks := checks }) := by
    simp only [marathonTaskToConsulServices, hres, hch]
  refine ⟨_, htr, by rw [List.length_map], by rw [List.map_map]; rfl, ?_, ?_⟩
  · intro t₂ n p h
    unfold serviceID
    rw [h]
  · intro hpw
    rw [List.map_map]
    exact List.Pairwise.map _
      (fun a b hab heq => by
        obtain ⟨hn, hp⟩ := serviceID_inj task a.name b.name a.port b.port heq
        rcases hab with hne | hne
        · exact hne hn
        · exact hne hp) hpw

/-- C3 witness: a concrete two-intent app with resolvable host and empty
check set — two registrations with the expected distinct IDs. -/
theorem register_translation_unique_deterministic_ids_amended_witness :
    (fun (_ : String) => (Except.ok "10.0.0.5" : Except String String)) "h" =
      .ok "10.0.0.5" ∧
    marathonToConsulChecks
      { requestRetries := 0, agentFailuresTolerance := 0, tag := "marathon",
        consulNameSeparator := ".", ignoredHealthChecks := "" }
      { id := "t1", host := "h", ports := [8080], appID := "a" } [] "10.0.0.5" =
      some [] ∧
    ∃ regs, marathonTaskToConsulServices
        { requestRetries := 0, agentFailuresTolerance := 0, tag := "marathon",
          consulNameSeparator := ".", ignoredHealthChecks := "" }
        (fun _ => .ok "10.0.0.5")
        { id := "t1", host := "h", ports := [8080], appID := "a" }
        { id := "a", labels := [], healthChecks := [],
          registrationIntents := fun _ _ =>
            [{ name := "n", port := 80, tags := [] },
             { name := "n", port := 81, tags := [] }] } = .registrations regs ∧
      regs.length = 2 ∧
      regs.map (fun r => r.id) = ["t1_n_80", "t1_n_81"] ∧
      (regs.map (fun r => r.id)).Nodup := by
  refine ⟨rfl, by decide, ?_⟩
  obtain ⟨regs, h1, h2, h3, _, h5⟩ :=
    register_translation_unique_deterministic_ids_amended
      { requestRetries := 0, agentFailuresTolerance := 0, tag := "marathon",
        consulNameSeparator := ".", ignoredHealthChecks := "" }
      (fun _ => .ok "10.0.0.5")
      { id := "t1", host := "h", ports := [8080], appID := "a" }
      { id := "a", labels := [], healthChecks := [],
        registrationIntents := fun _ _ =>
          [{ name := "n", port := 80, tags := [] },
           { name := "n", port := 81, tags := [] }] }
      "10.0.0.5" [] rfl (by decide)
  refine ⟨regs, h1, ?_, ?_, ?_⟩
  · rw [h2]; rfl
  · rw [h3]; decide
  · refine h5 ?_
    decide

lemma retryGo_characterization (cfg : Config) (choose : List Agent → Option Agent)
    (provide : Nat → Agent → Except ε ρ) :
    ∀ (fuel attempt : Nat) (pool : List Agent),
      (invokedOutcomes (retryGo cfg choose provide fuel attempt pool).trace).length ≤ fuel ∧
      (∀ e : ε, (retryGo cfg choose provide fuel attempt pool).result ≠ .error (.provider e)) ∧
      ((∃ (r : ρ) (pre : List (Except ε ρ)),
          (retryGo cfg choose provide fuel attempt pool).result = .ok r ∧
          invokedOutcomes (retryGo cfg choose provide fuel attempt pool).trace =
            pre ++ [.ok r] ∧
          ∀ o ∈ pre, ∃ e, o = .error e) ∨
        ((retryGo cfg choose provide fuel attempt pool).result = .error .noAgentsAvailable ∧
          (invokedOutcomes (retryGo cfg choose provide fuel attempt pool).trace).length < fuel ∧
          ∀ o ∈ invokedOutcomes (retryGo cfg choose provide fuel attempt pool).trace,
            ∃ e, o = .error e) ∨
        ((retryGo cfg choose provide fuel attempt pool).result = .error .givingUp ∧
          (invokedOutcomes (retryGo cfg choose provide fuel attempt pool).trace).length = fuel ∧
          ∀ o ∈ invokedOutcomes (retryGo cfg choose provide fuel attempt pool).trace,
            ∃ e, o = .error e)) := by
  intro fuel
  induction fuel with
  | zero =>
    intro attempt pool
    refine ⟨by simp [retryGo, invokedOutcomes], ?_, ?_⟩
    · intro e h
      simp only [retryGo] at h
      cases h
    · right; right
      simp [retryGo, invokedOutcomes]
  | succ f ih =>
    intro attempt pool
    cases hc : choose pool with
    | none =>
      have hout : retryGo cfg choose provide (f + 1) attempt pool =
          ⟨.error .noAgentsAvailable, pool, []⟩ := by
        simp only [retryGo, hc]
      rw [hout]
      refine ⟨by simp [invokedOutcomes], ?_, ?_⟩
      · intro e h
        cases h
      · right; left
        simp [invokedOutcomes]
    | some agent =>
      cases hp : provide attempt agent with
      | ok services =>
        have hout : retryGo cfg choose provide (f + 1) attempt pool =
            ⟨.ok services, clearFailuresGo pool agent.ip,
              [.invoked attempt agent.ip (.ok services), .cleared agent.ip]⟩ := by
          simp only [retryGo, hc, hp]
        rw [hout]
        refine ⟨by simp [invokedOutcomes], ?_, ?_⟩
        · intro e' h
          cases h
        · left
          exact ⟨services, [], rfl, by simp [invokedOutcomes], by intro o ho; cases ho⟩
      | error e =>
        by_cases htol : agent.failures + 1 > cfg.agentFailuresTolerance
        · have hout : retryGo cfg choose provide (f + 1) attempt pool =
              ⟨(retryGo cfg choose provide f (attempt + 1)
                  (removeAgentGo (incFailuresGo pool agent.ip) agent.ip)).result,
               (retryGo cfg choose provide f (attempt + 1)
                  (removeAgentGo (incFailuresGo pool agent.ip) agent.ip)).pool,
               .invoked attempt agent.ip (.error e) ::
                 .incremented agent.ip (agent.failures + 1) ::
                 .removed agent.ip ::
                 (retryGo cfg choose provide f (attempt + 1)
                   (removeAgentGo (incFailuresGo pool agent.ip) agent.ip)).trace⟩ := by
            simp only [retryGo, hc, hp, if_pos htol]
          obtain ⟨ih1, ih2, ih3⟩ := ih (attempt + 1)
            (removeAgentGo (incFailuresGo pool agent.ip) agent.ip)
          rw [hout]
          refine ⟨?_, ?_, ?_⟩
          · simp only [invokedOutcomes, List.length_cons]
            omega
          · intro e' h
            exact ih2 e' h
          · simp only [invokedOutcomes]
            rcases ih3 with ⟨r, pre, hr, hpre, hall⟩ | ⟨hr, hlen, hall⟩ | ⟨hr, hlen, hall⟩
            · left
              refine ⟨r, .error e :: pre, hr, by rw [hpre]; rfl, ?_⟩
              intro o ho
              rcases List.mem_cons.mp ho with rfl | ho'
              · exact ⟨e, rfl⟩
              · exact hall o ho'
            · right; left
              refine ⟨hr, by simp only [List.length_cons]; omega, ?_⟩
              intro o ho
              rcases List.mem_cons.mp ho with rfl | ho'
              · exact ⟨e, rfl⟩
              · exact hall o ho'
            · right; right
              refine ⟨hr, by simp only [List.length_cons]; omega, ?_⟩
              intro o ho
              rcases List.mem_cons.mp ho with rfl | ho'
              · exact ⟨e, rfl⟩
              · exact hall o ho'
        · have hout : retryGo cfg choose provide (f + 1) attempt pool =
              ⟨(retryGo cfg choose provide f (attempt + 1) (incFailuresGo pool agent.ip)).result,
               (retryGo cfg choose provide f (attempt + 1) (incFailuresGo pool agent.ip)).pool,
               .invoked attempt agent.ip (.error e) ::
                 .incremented agent.ip (agent.failures + 1) ::
                 (retryGo cfg choose provide f (attempt + 1)
                   (incFailuresGo pool agent.ip)).trace⟩ := by
            simp only [retryGo, hc, hp, if_neg htol]
          obtain ⟨ih1, ih2, ih3⟩ := ih (attempt + 1) (incFailuresGo pool agent.ip)
          rw [hout]
          refine ⟨?_, ?_, ?_⟩
          · simp only [invokedOutcomes, List.length_cons]
            omega
          · intro e' h
            exact ih2 e' h
          · simp only [invokedOutcomes]
            rcases ih3 with ⟨r, pre, hr, hpre, hall⟩ | ⟨hr, hlen, hall⟩ | ⟨hr, hlen, hall⟩
            · left
              refine ⟨r, .error e :: pre, hr, by rw [hpre]; rfl, ?_⟩
              intro o ho
              rcases List.mem_cons.mp ho with rfl | ho'
              · exact ⟨e, rfl⟩
              · exact hall o ho'
            · right; left
              refine ⟨hr, by simp only [List.length_cons]; omega, ?_⟩
              intro o ho
              rcases List.mem_cons.mp ho with rfl | ho'
              · exact ⟨e, rfl⟩
              · exact hall o ho'
            · right; right
              refine ⟨hr, by simp only [List.length_cons]; omega, ?_⟩
              intro o ho
              rcases List.mem_cons.mp ho with rfl | ho'
              · exact ⟨e, rfl⟩
              · exact hall o ho'

/-- C1: for every provider, the retry wrapper invokes the provider at most
`RequestRetries + 1` times; on the first successful invocation it returns
immediately (every earlier invocation failed and none follows); it returns
the terminal giving-up error exactly when all `RequestRetries + 1`
invocations were made and failed — an error distinct from every individual
provider error, which the wrapper never returns raw; and on an empty pool it
fails fast with the pool's no-agents error without any invocation. -/
theorem retry_wrapper_bounded_attempts_and_terminal_error (cfg : Config)
    (choose : List Agent → Option Agent) (provide : Nat → Agent → Except ε ρ)
    (pool : List Agent) :
    (invokedOutcomes
        (getServicesUsingProviderWithRetriesOnAgentFailure cfg choose provide pool).trace).length ≤
      cfg.requestRetries + 1 ∧
    (∀ r, (getServicesUsingProviderWithRetriesOnAgentFailure cfg choose provide pool).result =
        .ok r →
      ∃ pre, invokedOutcomes
          (getServicesUsingProviderWithRetriesOnAgentFailure cfg choose provide pool).trace =
          pre ++ [.ok r] ∧
        ∀ o ∈ pre, ∃ e, o = .error e) ∧
    ((getServicesUsingProviderWithRetriesOnAgentFailure cfg choose provide pool).result =
        .error .givingUp ↔
      ((invokedOutcomes
          (getServicesUsingProviderWithRetriesOnAgentFailure cfg choose provide pool).trace).length =
        cfg.requestRetries + 1 ∧
       ∀ o ∈ invokedOutcomes
          (getServicesUsingProviderWithRetriesOnAgentFailure cfg choose provide pool).trace,
         ∃ e, o = .error e)) ∧
    (∀ e, (getServicesUsingProviderWithRetriesOnAgentFailure cfg choose provide pool).result ≠
      .error (.provider e)) ∧
    (∀ e : ε, (RetryErr.givingUp : RetryErr ε) ≠ .provider e) ∧
    (choose [] = none → pool = [] →
      (getServicesUsingProviderWithRetriesOnAgentFailure cfg choose provide pool).result =
          .error .noAgentsAvailable ∧
        (getServicesUsingProviderWithRetriesOnAgentFailure cfg choose provide pool).trace = []) := by
  obtain ⟨h1, h2, h3⟩ :=
    retryGo_characterization cfg choose provide (cfg.requestRetries + 1) 0 pool
  unfold getServicesUsingProviderWithRetriesOnAgentFailure
  refine ⟨h1, ?_, ?_, h2, ?_, ?_⟩
  · intro r hr
    rcases h3 with ⟨r', pre, hres, hpre, hall⟩ | ⟨hres, _, _⟩ | ⟨hres, _, _⟩
    · rw [hres] at hr
      injection hr with hr
      subst hr
      exact ⟨pre, hpre, hall⟩
    · rw [hres] at hr
      cases hr
    · rw [hres] at hr
      cases hr
  · constructor
    · intro hg
      rcases h3 with ⟨r, pre, hres, _, _⟩ | ⟨hres, _, _⟩ | ⟨_, hlen, hall⟩
      · rw [hres] at hg
        cases hg
      · rw [hres] at hg
        injection hg with hg
        cases hg
      · exact ⟨hlen, hall⟩
    · rintro ⟨hlen, hall⟩
      rcases h3 with ⟨r, pre, hres, hpre, _⟩ | ⟨hres, hlt, _⟩ | ⟨hres, _, _⟩
      · exfalso
        have hmem : (Except.ok r : Except ε ρ) ∈ invokedOutcomes
            (retryGo cfg choose provide (cfg.requestRetries + 1) 0 pool).trace := by
          rw [hpre]
          exact List.mem_append_right _ (List.mem_singleton.mpr rfl)
        obtain ⟨e, he⟩ := hall _ hmem
        cases he
      · omega
      · exact hres
  · intro e h
    cases h
  · intro hce hpool
    subst hpool
    have hout : retryGo cfg choose provide (cfg.requestRetries + 1) 0 [] =
        ⟨.error .noAgentsAvailable, [], []⟩ := by
      simp only [retryGo, hce]
    rw [hout]
    exact ⟨rfl, rfl⟩

/-- C1 witness: one agent, two allowed attempts, first provider call failing
and the second succeeding — the wrapper returns the success, the sole
earlier invocation having failed. -/
theorem retry_wrapper_bounded_attempts_and_terminal_error_witness :
    ∃ pre, invokedOutcomes
        (getServicesUsingProviderWithRetriesOnAgentFailure (ε := String) (ρ := Nat)
          { requestRetries := 1, agentFailuresTolerance := 1, tag := "marathon",
            consulNameSeparator := ".", ignoredHealthChecks := "" }
          (fun pool => pool.head?)
          (fun attempt _ => if attempt = 0 then .error "boom" else .ok 7)
          [{ ip := "a1", failures := 0 }]).trace = pre ++ [.ok 7] ∧
      ∀ o ∈ pre, ∃ e, o = .error e := by
  exact (retry_wrapper_bounded_attempts_and_terminal_error
    { requestRetries := 1, agentFailuresTolerance := 1, tag := "marathon",
      consulNameSeparator := ".", ignoredHealthChecks := "" }
    (fun pool => pool.head?)
    (fun attempt _ => if attempt = 0 then .error "boom" else .ok 7)
    [{ ip := "a1", failures := 0 }]).2.1 7 (by decide)

lemma retryGo_trace_wf (cfg : Config) (choose : List Agent → Option Agent)
    (provide : Nat → Agent → Except ε ρ) :
    ∀ (fuel attempt : Nat) (pool : List Agent),
      RetryTrace cfg.agentFailuresTolerance
        (retryGo cfg choose provide fuel attempt pool).trace := by
  intro fuel
  induction fuel with
  | zero =>
    intro attempt pool
    simp only [retryGo]
    exact .nil
  | succ f ih =>
    intro attempt pool
    cases hc : choose pool with
    | none =>
      simp only [retryGo, hc]
      exact .nil
    | some agent =>
      cases hp : provide attempt agent with
      | ok services =>
        simp only [retryGo, hc, hp]
        exact .done attempt agent.ip services
      | error e =>
        by_cases htol : agent.failures + 1 > cfg.agentFailuresTolerance
        · simp only [retryGo, hc, hp, if_pos htol]
          exact .evict attempt agent.ip e (agent.failures + 1) _ htol
            (ih (attempt + 1) (removeAgentGo (incFailuresGo pool agent.ip) agent.ip))
        · simp only [retryGo, hc, hp, if_neg htol]
          exact .keep attempt agent.ip e (agent.failures + 1) _ (by omega)
            (ih (attempt + 1) (incFailuresGo pool agent.ip))

lemma RetryTrace.head_not_removed {tol : Nat} {evs : List (AgentEvent ε ρ)}
    (h : RetryTrace tol evs) : ∀ ip, evs[0]? ≠ some (.removed ip) := by
  cases h with
  | nil => intro ip hi; cases hi
  | done attempt ip' r => intro ip hi; injection hi with hi; cases hi
  | keep attempt ip' e n evs' hn hevs => intro ip hi; injection hi with hi; cases hi
  | evict attempt ip' e n evs' hn hevs => intro ip hi; injection hi with hi; cases hi

lemma RetryTrace.removed_follows_qualifying_increment {tol : Nat}
    {evs : List (AgentEvent ε ρ)} (h : RetryTrace tol evs) :
    ∀ i ip, evs[i]? = some (.removed ip) →
      ∃ j attempt e n, i = j + 2 ∧
        evs[j]? = some (.invoked attempt ip (.error e)) ∧
        evs[j + 1]? = some (.incremented ip n) ∧ n > tol := by
  induction h with
  | nil =>
    intro i ip hi
    rw [List.getElem?_nil] at hi
    cases hi
  | done attempt ip' r =>
    intro i ip hi
    cases i with
    | zero =>
      rw [List.getElem?_cons_zero] at hi
      injection hi with hi
      cases hi
    | succ i =>
      cases i with
      | zero =>
        rw [List.getElem?_cons_succ, List.getElem?_cons_zero] at hi
        injection hi with hi
        cases hi
      | succ i =>
        rw [List.getElem?_cons_succ, List.getElem?_cons_succ, List.getElem?_nil] at hi
        cases hi
  | keep attempt ip' e n evs' hn hevs ih =>
    intro i ip hi
    cases i with
    | zero =>
      rw [List.getElem?_cons_zero] at hi
      injection hi with hi
      cases hi
    | succ i =>
      cases i with
      | zero =>
        rw [List.getElem?_cons_succ, List.getElem?_cons_zero] at hi
        injection hi with hi
        cases hi
      | succ i =>
        rw [List.getElem?_cons_succ, List.getElem?_cons_succ] at hi
        obtain ⟨j, attempt', e', n', hj, h1, h2, h3⟩ := ih i ip hi
        refine ⟨j + 2, attempt', e', n', by omega, ?_, ?_, h3⟩
        · rw [List.getElem?_cons_succ, List.getElem?_cons_succ]
          exact h1
        · rw [List.getElem?_cons_succ, List.getElem?_cons_succ]
          exact h2
  | evict attempt ip' e n evs' hn hevs ih =>
    intro i ip hi
    cases i with
    | zero =>
      rw [List.getElem?_cons_zero] at hi
      injection hi with hi
      cases hi
    | succ i =>
      cases i with
      | zero =>
        rw [List.getElem?_cons_succ, List.getElem?_cons_zero] at hi
        injection hi with hi
        cases hi
      | succ i =>
        cases i with
        | zero =>
          rw [List.getElem?_cons_succ, List.getElem?_cons_succ,
            List.getElem?_cons_zero] at hi
          injection hi with hi
          injection hi with hi
          subst hi
          exact ⟨0, attempt, e, n, rfl, rfl, rfl, hn⟩
        | succ i =>
          rw [List.getElem?_cons_succ, List.getElem?_cons_succ,
            List.getElem?_cons_succ] at hi
          obtain ⟨j, attempt', e', n', hj, h1, h2, h3⟩ := ih i ip hi
          refine ⟨j + 3, attempt', e', n', by omega, ?_, ?_, h3⟩
          · rw [List.getElem?_cons_succ, List.getElem?_cons_succ,
              List.getElem?_cons_succ]
            exact h1
          · rw [List.getElem?_cons_succ, List.getElem?_cons_succ,
              List.getElem?_cons_succ]
            exact h2

lemma RetryTrace.qualifying_increment_then_removed {tol : Nat}
    {evs : List (AgentEvent ε ρ)} (h : RetryTrace tol evs) :
    ∀ i ip n, evs[i]? = some (.incremented ip n) → n > tol →
      evs[i + 1]? = some (.removed ip) := by
  induction h with
  | nil =>
    intro i ip n hi _
    rw [List.getElem?_nil] at hi
    cases hi
  | done attempt ip' r =>
    intro i ip n hi _
    cases i with
    | zero =>
      rw [List.getElem?_cons_zero] at hi
      injection hi with hi
      cases hi
    | succ i =>
      cases i with
      | zero =>
        rw [List.getElem?_cons_succ, List.getElem?_cons_zero] at hi
        injection hi with hi
        cases hi
      | succ i =>
        rw [List.getElem?_cons_succ, List.getElem?_cons_succ, List.getElem?_nil] at hi
        cases hi
  | keep attempt ip' e n' evs' hn hevs ih =>
    intro i ip n hi hgt
    cases i with
    | zero =>
      rw [List.getElem?_cons_zero] at hi
      injection hi with hi
      cases hi
    | succ i =>
      cases i with
      | zero =>
        rw [List.getElem?_cons_succ, List.getElem?_cons_zero] at hi
        injection hi with hi
        injection hi with hi1 hi2
        subst hi1
        subst hi2
        omega
      | succ i =>
        rw [List.getElem?_cons_succ, List.getElem?_cons_succ] at hi
        rw [show i + 1 + 1 + 1 = (i + 1) + 1 + 1 from rfl, List.getElem?_cons_succ,
          List.getElem?_cons_succ]
        exact ih i ip n hi hgt
  | evict attempt ip' e n' evs' hn hevs ih =>
    intro i ip n hi hgt
    cases i with
    | zero =>
      rw [List.getElem?_cons_zero] at hi
      injection hi with hi
      cases hi
    | succ i =>
      cases i with
      | zero =>
        rw [List.getElem?_cons_succ, List.getElem?_cons_zero] at hi
        injection hi with hi
        injection hi with hi1 hi2
        subst hi1
        rw [List.getElem?_cons_succ, List.getElem?_cons_succ, List.getElem?_cons_zero]
      | succ i =>
        cases i with
        | zero =>
          rw [List.getElem?_cons_succ, List.getElem?_cons_succ,
            List.getElem?_cons_zero] at hi
          injection hi with hi
          cases hi
        | succ i =>
          rw [List.getElem?_cons_succ, List.getElem?_cons_succ,
            List.getElem?_cons_succ] at hi
          rw [show i + 1 + 1 + 1 + 1 = i + 1 + 1 + 1 + 1 from rfl, List.getElem?_cons_succ,
            List.getElem?_cons_succ, List.getElem?_cons_succ]
          exact ih i ip n hi hgt

lemma RetryTrace.tolerated_increment_not_removed {tol : Nat}
    {evs : List (AgentEvent ε ρ)} (h : RetryTrace tol evs) :
    ∀ i ip n, evs[i]? = some (.incremented ip n) → n ≤ tol →
      ∀ ip', evs[i + 1]? ≠ some (.removed ip') := by
  induction h with
  | nil =>
    intro i ip n hi _
    rw [List.getElem?_nil] at hi
    cases hi
  | done attempt ip' r =>
    intro i ip n hi _
    cases i with
    | zero =>
      rw [List.getElem?_cons_zero] at hi
      injection hi with hi
      cases hi
    | succ i =>
      cases i with
      | zero =>
        rw [List.getElem?_cons_succ, List.getElem?_cons_zero] at hi
        injection hi with hi
        cases hi
      | succ i =>
        rw [List.getElem?_cons_succ, List.getElem?_cons_succ, List.getElem?_nil] at hi
        cases hi
  | keep attempt ip₀ e n' evs' hn hevs ih =>
    intro i ip n hi hle
    cases i with
    | zero =>
      rw [List.getElem?_cons_zero] at hi
      injection hi with hi
      cases hi
    | succ i =>
      cases i with
      | zero =>
        intro ip' hrem
        rw [List.getElem?_cons_succ, List.getElem?_cons_succ] at hrem
        exact hevs.head_not_removed ip' hrem
      | succ i =>
        intro ip' hrem
        rw [List.getElem?_cons_succ, List.getElem?_cons_succ] at hi
        rw [List.getElem?_cons_succ, List.getElem?_cons_succ] at hrem
        exact ih i ip n hi hle ip' hrem
  | evict attempt ip₀ e n' evs' hn hevs ih =>
    intro i ip n hi hle
    cases i with
    | zero =>
      rw [List.getElem?_cons_zero] at hi
      injection hi with hi
      cases hi
    | succ i =>
      cases i with
      | zero =>
        rw [List.getElem?_cons_succ, List.getElem?_cons_zero] at hi
        injection hi with hi
        injection hi with hi1 hi2
        subst hi2
        omega
      | succ i =>
        cases i with
        | zero =>
          rw [List.getElem?_cons_succ, List.getElem?_cons_succ,
            List.getElem?_cons_zero] at hi
          injection hi with hi
          cases hi
        | succ i =>
          intro ip' hrem
          rw [List.getElem?_cons_succ, List.getElem?_cons_succ,
            List.getElem?_cons_succ] at hi
          rw [List.getElem?_cons_succ, List.getElem?_cons_succ,
            List.getElem?_cons_succ] at hrem
          exact ih i ip n hi hle ip' hrem

lemma RetryTrace.success_then_cleared {tol : Nat}
    {evs : List (AgentEvent ε ρ)} (h : RetryTrace tol evs) :
    ∀ i attempt ip r, evs[i]? = some (.invoked attempt ip (.ok r)) →
      evs[i + 1]? = some (.cleared ip) := by
  induction h with
  | nil =>
    intro i attempt ip r hi
    rw [List.getElem?_nil] at hi
    cases hi
  | done attempt' ip' r' =>
    intro i attempt ip r hi
    cases i with
    | zero =>
      rw [List.getElem?_cons_zero] at hi
      injection hi with hi
      injection hi with hi1 hi2 hi3
      subst hi2
      rfl
    | succ i =>
      cases i with
      | zero =>
        rw [List.getElem?_cons_succ, List.getElem?_cons_zero] at hi
        injection hi with hi
        cases hi
      | succ i =>
        rw [List.getElem?_cons_succ, List.getElem?_cons_succ, List.getElem?_nil] at hi
        cases hi
  | keep attempt' ip₀ e n evs' hn hevs ih =>
    intro i attempt ip r hi
    cases i with
    | zero =>
      rw [List.getElem?_cons_zero] at hi
      injection hi with hi
      injection hi with hi1 hi2 hi3
      cases hi3
    | succ i =>
      cases i with
      | zero =>
        rw [List.getElem?_cons_succ, List.getElem?_cons_zero] at hi
        injection hi with hi
        cases hi
      | succ i =>
        rw [List.getElem?_cons_succ, List.getElem?_cons_succ] at hi
        rw [show i + 1 + 1 + 1 = i + 1 + 1 + 1 from rfl, List.getElem?_cons_succ,
          List.getElem?_cons_succ]
        exact ih i attempt ip r hi
  | evict attempt' ip₀ e n evs' hn hevs ih =>
    intro i attempt ip r hi
    cases i with
    | zero =>
      rw [List.getElem?_cons_zero] at hi
      injection hi with hi
      injection hi with hi1 hi2 hi3
      cases hi3
    | succ i =>
      cases i with
      | zero =>
        rw [List.getElem?_cons_succ, List.getElem?_cons_zero] at hi
        injection hi with hi
        cases hi
      | succ i =>
        cases i with
        | zero =>
          rw [List.getElem?_cons_succ, List.getElem?_cons_succ,
            List.getElem?_cons_zero] at hi
          injection hi with hi
          cases hi
        | succ i =>
          rw [List.getElem?_cons_succ, List.getElem?_cons_succ,
            List.getElem?_cons_succ] at hi
          rw [List.getElem?_cons_succ, List.getElem?_cons_succ,
            List.getElem?_cons_succ]
          exact ih i attempt ip r hi

/-- C2: in every retry run, an agent-removal event occurs exactly when the
increment event immediately preceding it — caused by a failed provider
invocation on that agent — raised that agent's failure count strictly above
`AgentFailuresTolerance`: every removal sits right after such a qualifying
increment (itself right after the failed invocation), every qualifying
increment is followed immediately by the removal, an increment within
tolerance is never followed by a removal, and a successful invocation is
instead followed immediately by clearing that agent's failure count. -/
theorem agent_removal_iff_failures_exceed_tolerance (cfg : Config)
    (choose : List Agent → Option Agent) (provide : Nat → Agent → Except ε ρ)
    (pool : List Agent) :
    (∀ i ip, (getServicesUsingProviderWithRetriesOnAgentFailure cfg choose provide
          pool).trace[i]? = some (.removed ip) →
      ∃ j attempt e n, i = j + 2 ∧
        (getServicesUsingProviderWithRetriesOnAgentFailure cfg choose provide
          pool).trace[j]? = some (.invoked attempt ip (.error e)) ∧
        (getServicesUsingProviderWithRetriesOnAgentFailure cfg choose provide
          pool).trace[j + 1]? = some (.incremented ip n) ∧
        n > cfg.agentFailuresTolerance) ∧
    (∀ i ip n, (getServicesUsingProviderWithRetriesOnAgentFailure cfg choose provide
          pool).trace[i]? = some (.incremented ip n) →
      n > cfg.agentFailuresTolerance →
      (getServicesUsingProviderWithRetriesOnAgentFailure cfg choose provide
        pool).trace[i + 1]? = some (.removed ip)) ∧
    (∀ i ip n, (getServicesUsingProviderWithRetriesOnAgentFailure cfg choose provide
          pool).trace[i]? = some (.incremented ip n) →
      n ≤ cfg.agentFailuresTolerance →
      ∀ ip', (getServicesUsingProviderWithRetriesOnAgentFailure cfg choose provide
        pool).trace[i + 1]? ≠ some (.removed ip')) ∧
    (∀ i attempt ip r, (getServicesUsingProviderWithRetriesOnAgentFailure cfg choose provide
          pool).trace[i]? = some (.invoked attempt ip (.ok r)) →
      (getServicesUsingProviderWithRetriesOnAgentFailure cfg choose provide
        pool).trace[i + 1]? = some (.cleared ip)) := by
  have hwf := retryGo_trace_wf cfg choose provide (cfg.requestRetries + 1) 0 pool
  exact ⟨hwf.removed_follows_qualifying_increment, hwf.qualifying_increment_then_removed,
    hwf.tolerated_increment_not_removed, hwf.success_then_cleared⟩

/-- C2 witness: one agent with tolerance 0 and an always-failing provider —
the increment to count 1 exceeds tolerance and is immediately followed by the
agent's removal. -/
theorem agent_removal_iff_failures_exceed_tolerance_witness :
    (getServicesUsingProviderWithRetriesOnAgentFailure (ε := String) (ρ := Nat)
        { requestRetries := 1, agentFailuresTolerance := 0, tag := "marathon",
          consulNameSeparator := ".", ignoredHealthChecks := "" }
        (fun pool => pool.head?) (fun _ _ => .error "boom")
        [{ ip := "a1", failures := 0 }]).trace[1]? =
      some (.incremented "a1" 1) ∧
    (getServicesUsingProviderWithRetriesOnAgentFailure (ε := String) (ρ := Nat)
        { requestRetries := 1, agentFailuresTolerance := 0, tag := "marathon",
          consulNameSeparator := ".", ignoredHealthChecks := "" }
        (fun pool => pool.head?) (fun _ _ => .error "boom")
        [{ ip := "a1", failures := 0 }]).trace[2]? = some (.removed "a1") := by
  refine ⟨by decide, ?_⟩
  exact (agent_removal_iff_failures_exceed_tolerance
    { requestRetries := 1, agentFailuresTolerance := 0, tag := "marathon",
      consulNameSeparator := ".", ignoredHealthChecks := "" }
    (fun pool => pool.head?) (fun _ _ => .error "boom")
    [{ ip := "a1", failures := 0 }]).2.1 1 "a1" 1 (by decide) (by decide)
